import Mathlib

/-!
Verification model of the libavfilter format-negotiation core
(libavfilter/formats.c).

Shared capability sets (AVFilterFormats, AVFilterChannelLayouts) are
records; the shared-ownership graph is a `World`: an association list of
live set instances keyed by a natural number (modelling the C pointer
identity) together with an association list mapping each connection
endpoint slot to the instance it currently references (`none` models a
NULL pointer).  Every `av_realloc_array` / `av_calloc` outcome is an
explicit boolean parameter, so allocation-failure paths are part of the
model.
-/

namespace AVFilter

/-- FFmpeg error construction: AVERROR negates a POSIX errno value. -/
def AVERROR (e : Int) : Int := -e

/-- POSIX ENOMEM. -/
def ENOMEM : Int := 12

/-- POSIX EINVAL. -/
def EINVAL : Int := 22

/-- Media kinds relevant to negotiation (enum AVMediaType). -/
inductive AVMediaType where
  | video
  | audio
  | subtitle
  | unknown
deriving DecidableEq, Repr

/-- Fields of a pixel format descriptor consulted by
merge_formats_internal (av_pix_fmt_desc_get): whether the
AV_PIX_FMT_FLAG_ALPHA flag is set, and the number of components. -/
structure PixFmtDesc where
  hasAlpha : Bool
  nb_components : Nat
deriving DecidableEq, Repr

/-- AVFilterFormats: ordered list of scalar format identifiers plus the
back references to the slots owning the set.  The C refcount field
always equals the length of refs, so it is represented by it. -/
structure AVFilterFormats where
  formats : List Int
  refs : List Nat
deriving DecidableEq, Repr

/-- Modelled from the spec: a channel-layout descriptor (AVChannelLayout,
declared in libavutil, not part of the given sources) is either a known
layout (a specific named arrangement, identified by `id`, with its
channel count) or a generic channel-count entry carrying only a count
with unspecified order.  The cleared descriptor left behind by
av_channel_layout_uninit is `generic 0`. -/
inductive ChLayout where
  | known (id : Nat) (nb : Nat)
  | generic (nb : Nat)
deriving DecidableEq, Repr

/-- Channel count of a descriptor (the nb_channels field). -/
def ChLayout.nb_channels : ChLayout → Nat
  | .known _ n => n
  | .generic n => n

/-- Modelled from the spec: the KNOWN macro of libavfilter/formats.h
(not part of the given sources) — a descriptor is known when it names a
specific arrangement with at least one channel. -/
def KNOWN : ChLayout → Bool
  | .known _ n => n != 0
  | .generic _ => false

/-- Modelled from the spec: av_channel_layout_check (libavutil, not part
of the given sources) — a descriptor is valid when it describes at
least one channel. -/
def av_channel_layout_check (l : ChLayout) : Bool := l.nb_channels != 0

/-- Modelled from the spec: FF_COUNT2LAYOUT builds the generic-count
descriptor for a channel count. -/
def FF_COUNT2LAYOUT (n : Nat) : ChLayout := .generic n

/-- Modelled from the spec: the zeroed descriptor written by
av_channel_layout_uninit. -/
def uninitLayout : ChLayout := .generic 0

/-- AVFilterChannelLayouts: descriptor list, the two wildcard flags and
the owner back references. -/
structure AVFilterChannelLayouts where
  channel_layouts : List ChLayout
  all_layouts : Bool
  all_counts : Bool
  refs : List Nat
deriving DecidableEq, Repr

/-- Interface shared by AVFilterFormats and AVFilterChannelLayouts: the
back-reference list (the C refcount field equals its length).  The
MERGE_REF / FORMATS_REF / SET_COMMON_FORMATS macros are instantiated at
both types in the source, so their models are generic over it. -/
class RefSet (F : Type) where
  refs : F → List Nat
  setRefs : F → List Nat → F
  refs_setRefs : ∀ x l, refs (setRefs x l) = l

instance : RefSet AVFilterFormats where
  refs := AVFilterFormats.refs
  setRefs := fun f l => { f with refs := l }
  refs_setRefs := fun _ _ => rfl

instance : RefSet AVFilterChannelLayouts where
  refs := AVFilterChannelLayouts.refs
  setRefs := fun f l => { f with refs := l }
  refs_setRefs := fun _ _ => rfl

/-- First value bound to a key in an association list (models a pointer
dereference). -/
def alistFind (k : Nat) : List (Nat × α) → Option α
  | [] => none
  | p :: ps => if p.1 = k then some p.2 else alistFind k ps

/-- Overwrite the value bound to a key (models a store through a
pointer). -/
def alistSet (k : Nat) (v : α) : List (Nat × α) → List (Nat × α)
  | [] => []
  | p :: ps => if p.1 = k then (k, v) :: alistSet k v ps else p :: alistSet k v ps

/-- Apply a function to the value bound to a key. -/
def alistMapAt (k : Nat) (g : α → α) : List (Nat × α) → List (Nat × α)
  | [] => []
  | p :: ps =>
    if p.1 = k then (p.1, g p.2) :: alistMapAt k g ps
    else p :: alistMapAt k g ps

/-- Drop a key (models freeing the object). -/
def alistRemove (k : Nat) : List (Nat × α) → List (Nat × α)
  | [] => []
  | p :: ps => if p.1 = k then alistRemove k ps else p :: alistRemove k ps

/-- Repoint every slot listed in targets (the loop of MERGE_REF writing
through each moved back reference). -/
def repointSlots (targets : List Nat) (retK : Nat) :
    List (Nat × Option Nat) → List (Nat × Option Nat)
  | [] => []
  | q :: qs =>
    (if q.1 ∈ targets then (q.1, some retK) else q) :: repointSlots targets retK qs

/-- The ownership world: the live set instances and, for every endpoint
slot, the instance it references (`none` models a NULL config pointer). -/
structure World (F : Type) where
  sets : List (Nat × F)
  slots : List (Nat × Option Nat)
deriving DecidableEq, Repr

/-- Well-formedness of a world, as maintained by the C code: instance
keys and slot ids are unique, owner lists carry no duplicate slot, every
owner back reference points to a slot whose pointer is the set, and every
slot pointing at a live set is registered in that set's owner list. -/
def Consistent [RefSet F] (w : World F) : Prop :=
  (w.sets.map Prod.fst).Nodup ∧
  (w.slots.map Prod.fst).Nodup ∧
  (∀ p ∈ w.sets, (RefSet.refs p.2).Nodup) ∧
  (∀ p ∈ w.sets, ∀ s ∈ RefSet.refs p.2, (s, some p.1) ∈ w.slots) ∧
  (∀ q ∈ w.slots, ∀ p ∈ w.sets, q.2 = some p.1 → q.1 ∈ RefSet.refs p.2)

instance consistentDecidable {F : Type} [RefSet F] (w : World F) :
    Decidable (Consistent w) := by
  unfold Consistent
  infer_instance

/-- MERGE_REF(ret, a) (formats.c lines 35-53): append a's refs to ret's
refs, repoint every slot listed in a's refs to ret, and destroy a.  The
fail_statement branch taken when av_realloc_array fails is handled by
each caller before invoking this, so this models the successful case. -/
def MERGE_REF_W [RefSet F] (w : World F) (retK aK : Nat) : World F :=
  match alistFind aK w.sets with
  | none => w
  | some aObj =>
    { sets := alistMapAt retK
        (fun f => RefSet.setRefs f (RefSet.refs f ++ RefSet.refs aObj))
        (alistRemove aK w.sets),
      slots := repointSlots (RefSet.refs aObj) retK w.slots }

/-- Cross-product alpha scan of merge_formats_internal (line 119):
some format of a and some format of b both carry the alpha flag. -/
def alpha2 (desc : Int → PixFmtDesc) (af bf : List Int) : Bool :=
  af.any (fun fa => bf.any (fun fb => (desc fa).hasAlpha && (desc fb).hasAlpha))

/-- Cross-product chroma scan of merge_formats_internal (line 120):
some format of a and some format of b both have more than one
component. -/
def chroma2 (desc : Int → PixFmtDesc) (af bf : List Int) : Bool :=
  af.any (fun fa => bf.any (fun fb =>
    decide (1 < (desc fa).nb_components) && decide (1 < (desc fb).nb_components)))

/-- Common-format alpha scan of merge_formats_internal (line 122):
some format common to a and b carries the alpha flag. -/
def alpha1 (desc : Int → PixFmtDesc) (af bf : List Int) : Bool :=
  af.any (fun fa => bf.any (fun fb => fa == fb && (desc fa).hasAlpha))

/-- Common-format chroma scan of merge_formats_internal (line 123). -/
def chroma1 (desc : Int → PixFmtDesc) (af bf : List Int) : Bool :=
  af.any (fun fa => bf.any (fun fb => fa == fb && decide (1 < (desc fa).nb_components)))

/-- The rejection condition of merge_formats_internal (line 129):
alpha or chroma capability would be lost by taking the intersection. -/
def lossDetected (desc : Int → PixFmtDesc) (af bf : List Int) : Bool :=
  (alpha2 desc af bf && !alpha1 desc af bf) ||
  (chroma2 desc af bf && !chroma1 desc af bf)

/-- merge_formats_internal (formats.c lines 95-135) together with the
expansion of MERGE_FORMATS with empty_allowed = 0 (lines 62-93):
pointer-equal operands are trivially compatible; for video a lossy
narrowing aborts with 0; in check mode only the existence of a common
format is reported; otherwise a's entry list is narrowed in place to
the formats also present in b (in a's order), 0 is returned when none
survive, and finally MERGE_REF folds b into a — whose allocation
failure returns AVERROR(ENOMEM) with a already narrowed. -/
def merge_formats_internal (desc : Int → PixFmtDesc) (w : World AVFilterFormats)
    (ka kb : Nat) (ty : AVMediaType) (check : Bool) (allocOk : Bool) :
    Int × World AVFilterFormats :=
  if ka = kb then (1, w) else
  match alistFind ka w.sets, alistFind kb w.sets with
  | some a, some b =>
    if ty = AVMediaType.video && lossDetected desc a.formats b.formats then (0, w)
    else if check then
      (if a.formats.any (fun f => b.formats.contains f) then 1 else 0, w)
    else
      let common := a.formats.filter (fun f => b.formats.contains f)
      if common = [] then (0, w)
      else
        let w1 : World AVFilterFormats :=
          { w with sets := alistSet ka { a with formats := common } w.sets }
        if allocOk then (1, MERGE_REF_W w1 ka kb)
        else (AVERROR ENOMEM, w1)
  | _, _ => (0, w)

/-- can_merge_pix_fmts (formats.c lines 144-148). -/
def can_merge_pix_fmts (desc : Int → PixFmtDesc) (w : World AVFilterFormats)
    (ka kb : Nat) : Int :=
  (merge_formats_internal desc w ka kb AVMediaType.video true true).1

/-- merge_pix_fmts (formats.c lines 162-165). -/
def merge_pix_fmts (desc : Int → PixFmtDesc) (w : World AVFilterFormats)
    (ka kb : Nat) (allocOk : Bool) : Int × World AVFilterFormats :=
  merge_formats_internal desc w ka kb AVMediaType.video false allocOk

/-- can_merge_sample_fmts (formats.c lines 170-174). -/
def can_merge_sample_fmts (desc : Int → PixFmtDesc) (w : World AVFilterFormats)
    (ka kb : Nat) : Int :=
  (merge_formats_internal desc w ka kb AVMediaType.audio true true).1

/-- merge_sample_fmts (formats.c lines 179-182). -/
def merge_sample_fmts (desc : Int → PixFmtDesc) (w : World AVFilterFormats)
    (ka kb : Nat) (allocOk : Bool) : Int × World AVFilterFormats :=
  merge_formats_internal desc w ka kb AVMediaType.audio false allocOk

/-- merge_samplerates_internal (formats.c lines 184-192) with the
expansion of MERGE_FORMATS with empty_allowed = 1: when one operand has
no entries, check mode reports 1 immediately; in merge mode the
operands are swapped when a is the empty one, the intersection loop is
skipped, and MERGE_REF folds the (post-swap) b into a, so the non-empty
operand survives with its entries intact. -/
def merge_samplerates_internal (w : World AVFilterFormats) (ka kb : Nat)
    (check : Bool) (allocOk : Bool) : Int × World AVFilterFormats :=
  if ka = kb then (1, w) else
  match alistFind ka w.sets, alistFind kb w.sets with
  | some a, some b =>
    if a.formats.isEmpty || b.formats.isEmpty then
      if check then (1, w)
      else
        let retK := if a.formats.isEmpty then kb else ka
        let srcK := if a.formats.isEmpty then ka else kb
        if allocOk then (1, MERGE_REF_W w retK srcK)
        else (AVERROR ENOMEM, w)
    else if check then
      (if a.formats.any (fun f => b.formats.contains f) then 1 else 0, w)
    else
      let common := a.formats.filter (fun f => b.formats.contains f)
      if common = [] then (0, w)
      else
        let w1 : World AVFilterFormats :=
          { w with sets := alistSet ka { a with formats := common } w.sets }
        if allocOk then (1, MERGE_REF_W w1 ka kb)
        else (AVERROR ENOMEM, w1)
  | _, _ => (0, w)

/-- can_merge_samplerates (formats.c lines 197-200). -/
def can_merge_samplerates (w : World AVFilterFormats) (ka kb : Nat) : Int :=
  (merge_samplerates_internal w ka kb true true).1

/-- merge_samplerates (formats.c lines 205-208). -/
def merge_samplerates (w : World AVFilterFormats) (ka kb : Nat)
    (allocOk : Bool) : Int × World AVFilterFormats :=
  merge_samplerates_internal w ka kb false allocOk

/-- The in-place compaction loop of merge_channel_layouts (formats.c
lines 234-236): j counts known entries; for a known entry at index i
with i differing from the pre-increment value of j, the entry is copied
to index j + 1 — the post-increment value of j, which is what the copy
statement reads.  Writes always land at an index at most equal to i
(j < i whenever a copy happens), so every iteration reads the original
entry at position i; the recursion therefore walks the original list
while threading the partially rewritten array. -/
def keepKnownGo : List ChLayout → Nat → Nat → List ChLayout → List ChLayout × Nat
  | [], _, j, arr => (arr, j)
  | x :: rest, i, j, arr =>
    if KNOWN x then
      if i ≠ j then keepKnownGo rest (i + 1) (j + 1) (arr.set (j + 1) x)
      else keepKnownGo rest (i + 1) (j + 1) arr
    else keepKnownGo rest (i + 1) j arr

/-- The compaction entered on the a_all = 1, b_all = 0 branch: returns
the rewritten array and the final value of j (the new
nb_channel_layouts). -/
def keepKnownCompact (l : List ChLayout) : List ChLayout × Nat :=
  keepKnownGo l 0 0 l

/-- First pass of the concrete/concrete channel-layout merge (formats.c
lines 251-263): a[known] intersect b[known]; each matched entry of a is
copied to the result and the matched entries in both arrays are cleared
in place.  Returns the updated a array, the updated b array and the
result entries contributed by this pass, in scan order. -/
def clPass1 : List ChLayout → List ChLayout → List ChLayout × List ChLayout × List ChLayout
  | [], b => ([], b, [])
  | x :: xs, b =>
    if KNOWN x then
      match b.findIdx? (fun y => y == x) with
      | some j =>
        let r := clPass1 xs (b.set j uninitLayout)
        (uninitLayout :: r.1, r.2.1, x :: r.2.2)
      | none =>
        let r := clPass1 xs b
        (x :: r.1, r.2.1, r.2.2)
    else
      let r := clPass1 xs b
      (x :: r.1, r.2.1, r.2.2)

/-- One round of the known/generic cross pass (formats.c lines 266-278):
every valid known entry of a contributes one copy of itself per entry
of b equal to the generic descriptor with the same channel count. -/
def clPass2Round (a b : List ChLayout) : List ChLayout :=
  (a.map (fun x =>
    if av_channel_layout_check x && KNOWN x then
      (b.filter (fun y => y == FF_COUNT2LAYOUT x.nb_channels)).map (fun _ => x)
    else [])).flatten

/-- The generic/generic pass (formats.c lines 280-286). -/
def clPass3 (a b : List ChLayout) : List ChLayout :=
  (a.map (fun x =>
    if KNOWN x then []
    else (b.filter (fun y => y == x)).map (fun _ => x))).flatten

/-- Wildcard weight, the a_all / b_all value of merge_channel_layouts
(lines 218-219): all_layouts + all_counts. -/
def clAll (f : AVFilterChannelLayouts) : Nat :=
  (if f.all_layouts then 1 else 0) + (if f.all_counts then 1 else 0)

/-- Generic-side branch of merge_channel_layouts (formats.c lines
231-245), after normalization put the more generic operand in aG (key
kGen).  For a_all = 1 against a fully concrete b, b's array is first
compacted by the in-place loop (keeping j entries); an empty result
fails with 0.  MERGE_REF(b, a) then makes the concrete side survive;
its allocation failure returns AVERROR(ENOMEM) with b already
compacted. -/
def merge_cl_generic (w : World AVFilterChannelLayouts) (kGen kConc : Nat)
    (aG bC : AVFilterChannelLayouts) (allocRef : Bool) :
    Int × World AVFilterChannelLayouts :=
  if clAll aG = 1 ∧ clAll bC = 0 then
    let fj := keepKnownCompact bC.channel_layouts
    if fj.2 = 0 then (0, w)
    else
      let b' := { bC with channel_layouts := fj.1.take fj.2 }
      let w1 : World AVFilterChannelLayouts :=
        { w with sets := alistSet kConc b' w.sets }
      if allocRef then (1, MERGE_REF_W w1 kConc kGen)
      else (AVERROR ENOMEM, w1)
  else
    if allocRef then (1, MERGE_REF_W w kConc kGen)
    else (AVERROR ENOMEM, w)

/-- Concrete/concrete branch of merge_channel_layouts (formats.c lines
247-301).  allocLayouts is the av_calloc of the result array; then the
three passes run, leaving the in-place cleared entries in a and b; an
empty result frees the array and returns 0 (both arrays are then
untouched, since pass 1 clears entries only when it also produces a
result entry); otherwise the operand with the larger refcount survives
(ties kept on b), MERGE_REF folds the donor in — its allocation failure
returns AVERROR(ENOMEM) with the cleared entries persisting — and the
survivor's array is replaced by the result. -/
def merge_cl_concrete (w : World AVFilterChannelLayouts) (ka kb : Nat)
    (a b : AVFilterChannelLayouts) (allocLayouts allocRef : Bool) :
    Int × World AVFilterChannelLayouts :=
  if !allocLayouts then (AVERROR ENOMEM, w)
  else
    let p := clPass1 a.channel_layouts b.channel_layouts
    let a1 := p.1
    let b1 := p.2.1
    let res := p.2.2 ++ clPass2Round a1 b1 ++ clPass2Round b1 a1 ++ clPass3 a1 b1
    let wz : World AVFilterChannelLayouts :=
      { w with sets := alistSet kb { b with channel_layouts := b1 }
                         (alistSet ka { a with channel_layouts := a1 } w.sets) }
    if res = [] then (0, wz)
    else
      let surv := if b.refs.length < a.refs.length then ka else kb
      let donor := if b.refs.length < a.refs.length then kb else ka
      if allocRef then
        let w2 := MERGE_REF_W wz surv donor
        match alistFind surv w2.sets with
        | some sObj =>
          (1, { w2 with sets := alistSet surv { sObj with channel_layouts := res } w2.sets })
        | none => (1, w2)
      else (AVERROR ENOMEM, wz)

/-- merge_channel_layouts (formats.c lines 213-302): pointer-equal
operands are trivially compatible; otherwise the more generic operand
(larger all_layouts + all_counts) is normalized into the a role and the
generic or concrete branch runs. -/
def merge_channel_layouts (w : World AVFilterChannelLayouts) (ka kb : Nat)
    (allocLayouts allocRef : Bool) : Int × World AVFilterChannelLayouts :=
  if ka = kb then (1, w) else
  match alistFind ka w.sets, alistFind kb w.sets with
  | some a, some b =>
    if clAll a = 0 ∧ clAll b = 0 then
      merge_cl_concrete w ka kb a b allocLayouts allocRef
    else if clAll a < clAll b then
      merge_cl_generic w kb ka b a allocRef
    else
      merge_cl_generic w ka kb a b allocRef
  | _, _ => (0, w)

/-- FORMATS_REF (formats.c lines 584-598): a NULL set yields
AVERROR(ENOMEM); on success the requesting slot is appended to the
owner list and the slot pointer is set to the set; when growing the
owner array fails, unref_fn runs on the local pointer — the address of
a local is never registered in refs, so FIND_REF_INDEX finds nothing,
the refcount is untouched, and the set is destroyed exactly when its
refcount is 0; the requesting slot is never attached. -/
def FORMATS_REF_W [RefSet F] (w : World F) (fk : Option Nat) (ref : Nat)
    (allocOk : Bool) : Int × World F :=
  match fk with
  | none => (AVERROR ENOMEM, w)
  | some k =>
    match alistFind k w.sets with
    | none => (AVERROR ENOMEM, w)
    | some f =>
      if allocOk then
        (0, { sets := alistSet k (RefSet.setRefs f (RefSet.refs f ++ [ref])) w.sets,
              slots := alistSet ref (some k) w.slots })
      else
        (AVERROR ENOMEM,
          if RefSet.refs f = [] then { w with sets := alistRemove k w.sets } else w)

/-- ff_formats_ref (formats.c lines 605-608). -/
def ff_formats_ref (w : World AVFilterFormats) (fk : Option Nat) (ref : Nat)
    (allocOk : Bool) : Int × World AVFilterFormats :=
  FORMATS_REF_W w fk ref allocOk

/-- ff_channel_layouts_ref (formats.c lines 600-603). -/
def ff_channel_layouts_ref (w : World AVFilterChannelLayouts) (fk : Option Nat)
    (ref : Nat) (allocOk : Bool) : Int × World AVFilterChannelLayouts :=
  FORMATS_REF_W w fk ref allocOk

/-- A filter link as seen by SET_COMMON_FORMATS: the slot holding the
relevant config field, and the link's media kind. -/
structure AVFilterLink where
  slot : Nat
  ltype : AVMediaType
deriving DecidableEq, Repr

/-- The per-link loop body of SET_COMMON_FORMATS (formats.c lines
691-710): each non-null link of matching media kind whose config slot
is still NULL receives a new reference; a negative result from ref_fn
is returned immediately, with no unwinding of earlier iterations.  The
numeric argument counts ref_fn invocations, indexing the allocation
oracle. -/
def set_common_go [RefSet F] (k : Nat) (mt : AVMediaType) (oracle : Nat → Bool) :
    List (Option AVFilterLink) → World F → Nat → Int × World F × Nat
  | [], w, n => (0, w, n)
  | none :: ls, w, n => set_common_go k mt oracle ls w n
  | some l :: ls, w, n =>
    if alistFind l.slot w.slots = some none ∧ (mt = AVMediaType.unknown ∨ l.ltype = mt) then
      let r := FORMATS_REF_W w (some k) l.slot (oracle n)
      if r.1 < 0 then (r.1, r.2, n + 1)
      else set_common_go k mt oracle ls r.2 (n + 1)
    else set_common_go k mt oracle ls w n

/-- SET_COMMON_FORMATS (formats.c lines 685-715): a NULL set is
AVERROR(ENOMEM); the inputs and then the outputs are walked by the loop
above; afterwards a set that gained no owner is destroyed. -/
def SET_COMMON_FORMATS_W [RefSet F] (w : World F) (fk : Option Nat)
    (mt : AVMediaType) (inputs outputs : List (Option AVFilterLink))
    (oracle : Nat → Bool) : Int × World F :=
  match fk with
  | none => (AVERROR ENOMEM, w)
  | some k =>
    let r := set_common_go k mt oracle (inputs ++ outputs) w 0
    if r.1 < 0 then (r.1, r.2.1)
    else
      match alistFind k r.2.1.sets with
      | some f =>
        if RefSet.refs f = [] then (0, { r.2.1 with sets := alistRemove k r.2.1.sets })
        else (0, r.2.1)
      | none => (0, r.2.1)

/-- ff_set_common_formats (formats.c lines 758-762): media kind
unfiltered. -/
def ff_set_common_formats (w : World AVFilterFormats) (fk : Option Nat)
    (inputs outputs : List (Option AVFilterLink)) (oracle : Nat → Bool) :
    Int × World AVFilterFormats :=
  SET_COMMON_FORMATS_W w fk AVMediaType.unknown inputs outputs oracle

/-- ff_set_common_samplerates (formats.c lines 735-740): audio links
only. -/
def ff_set_common_samplerates (w : World AVFilterFormats) (fk : Option Nat)
    (inputs outputs : List (Option AVFilterLink)) (oracle : Nat → Bool) :
    Int × World AVFilterFormats :=
  SET_COMMON_FORMATS_W w fk AVMediaType.audio inputs outputs oracle

/-- ff_set_common_channel_layouts (formats.c lines 717-722): audio links
only. -/
def ff_set_common_channel_layouts (w : World AVFilterChannelLayouts)
    (fk : Option Nat) (inputs outputs : List (Option AVFilterLink))
    (oracle : Nat → Bool) : Int × World AVFilterChannelLayouts :=
  SET_COMMON_FORMATS_W w fk AVMediaType.audio inputs outputs oracle

/-- ff_all_channel_layouts (formats.c lines 566-573): zero-initialized
with only all_layouts set. -/
def ff_all_channel_layouts : AVFilterChannelLayouts :=
  { channel_layouts := [], all_layouts := true, all_counts := false, refs := [] }

/-- ff_all_channel_counts (formats.c lines 575-582): zero-initialized
with both wildcard flags set. -/
def ff_all_channel_counts : AVFilterChannelLayouts :=
  { channel_layouts := [], all_layouts := true, all_counts := true, refs := [] }

/-- ff_make_channel_layout_list (formats.c lines 391-425): copies the
literal array up to the first descriptor with channel count 0; the
wildcard flags stay zero-initialized. -/
def ff_make_channel_layout_list (fmts : List ChLayout) : AVFilterChannelLayouts :=
  { channel_layouts := fmts.takeWhile (fun l => l.nb_channels != 0),
    all_layouts := false, all_counts := false, refs := [] }

/-- ff_make_format_list (formats.c lines 382-389): copies the literal
array up to the -1 sentinel. -/
def ff_make_format_list (fmts : List Int) : AVFilterFormats :=
  { formats := fmts.takeWhile (fun f => f != -1), refs := [] }

/-- ff_all_samplerates (formats.c lines 560-564): a zero-initialized,
empty set. -/
def ff_all_samplerates : AVFilterFormats := { formats := [], refs := [] }

/-- The duplicate scan of check_list (formats.c lines 905-912): the
double loop compares every pair at distinct indices. -/
def hasDup : List Int → Bool
  | [] => false
  | x :: xs => xs.contains x || hasDup xs

/-- check_list (formats.c lines 895-914): a NULL list passes, an empty
list or a duplicated identifier is AVERROR(EINVAL). -/
def check_list (fmts : Option AVFilterFormats) : Int :=
  match fmts with
  | none => 0
  | some f =>
    if f.formats = [] then AVERROR EINVAL
    else if hasDup f.formats then AVERROR EINVAL
    else 0

/-- ff_formats_check_pixel_formats (formats.c lines 916-919). -/
def ff_formats_check_pixel_formats (fmts : Option AVFilterFormats) : Int :=
  check_list fmts

/-- ff_formats_check_sample_formats (formats.c lines 921-924). -/
def ff_formats_check_sample_formats (fmts : Option AVFilterFormats) : Int :=
  check_list fmts

/-- ff_formats_check_sample_rates (formats.c lines 926-931): a NULL or
empty list passes before check_list runs. -/
def ff_formats_check_sample_rates (fmts : Option AVFilterFormats) : Int :=
  match fmts with
  | none => 0
  | some f => if f.formats = [] then 0 else check_list (some f)

/-- layouts_compatible (formats.c lines 933-938). -/
def layouts_compatible (a b : ChLayout) : Bool :=
  a == b
  || (KNOWN a && !KNOWN b && a.nb_channels == b.nb_channels)
  || (KNOWN b && !KNOWN a && b.nb_channels == a.nb_channels)

/-- The redundancy scan of ff_formats_check_channel_layouts (lines
954-961). -/
def hasRedundant : List ChLayout → Bool
  | [] => false
  | x :: xs => xs.any (fun y => layouts_compatible x y) || hasRedundant xs

/-- ff_formats_check_channel_layouts (formats.c lines 940-963). -/
def ff_formats_check_channel_layouts (fmts : Option AVFilterChannelLayouts) : Int :=
  match fmts with
  | none => 0
  | some f =>
    if (if f.all_layouts then 1 else 0) < (if f.all_counts then (1 : Nat) else 0) then
      AVERROR EINVAL
    else if !f.all_layouts && f.channel_layouts.isEmpty then AVERROR EINVAL
    else if hasRedundant f.channel_layouts then AVERROR EINVAL
    else 0

/-- Ownership outcome of a successful merge (claim C5): one operand
survives holding the combined owner count, every slot that referenced
either operand now references the survivor, and the donor instance is
destroyed and referenced by no slot. -/
def MergedOwnership {F : Type} [RefSet F] (w : World F) (ka kb : Nat)
    (a b : F) (w' : World F) : Prop :=
  ∃ surv donor, ((surv = ka ∧ donor = kb) ∨ (surv = kb ∧ donor = ka)) ∧
    (∃ s, alistFind surv w'.sets = some s ∧
      (RefSet.refs s).length = (RefSet.refs a).length + (RefSet.refs b).length) ∧
    (∀ q ∈ w.slots, (q.2 = some ka ∨ q.2 = some kb) → (q.1, some surv) ∈ w'.slots) ∧
    alistFind donor w'.sets = none ∧
    (∀ q ∈ w'.slots, q.2 ≠ some donor)

/-- The wildcard-flag ordering invariant of channel-layout sets (claim
C8): all_counts implies all_layouts. -/
def clWildcardInv (f : AVFilterChannelLayouts) : Prop :=
  f.all_counts = true → f.all_layouts = true

instance clWildcardInvDecidable (f : AVFilterChannelLayouts) :
    Decidable (clWildcardInv f) := by
  unfold clWildcardInv
  infer_instance

/-! Association list lemmas. -/

theorem alistFind_set_self {α : Type} (k : Nat) (v : α) (l : List (Nat × α)) :
    alistFind k (alistSet k v l) = (alistFind k l).map (fun _ => v) := by
  induction l with
  | nil => rfl
  | cons p ps ih =>
    by_cases h : p.1 = k
    · simp [alistSet, alistFind, h]
    · simp [alistSet, alistFind, h, ih]

theorem alistFind_set_ne {α : Type} {k' k : Nat} (v : α) (l : List (Nat × α))
    (h : k' ≠ k) : alistFind k' (alistSet k v l) = alistFind k' l := by
  have hk : k ≠ k' := fun hh => h hh.symm
  induction l with
  | nil => rfl
  | cons p ps ih =>
    by_cases hp : p.1 = k
    · have hp' : p.1 ≠ k' := by rw [hp]; exact hk
      simp [alistSet, alistFind, hp, hk, h, hp', ih]
    · by_cases hp' : p.1 = k'
      · simp [alistSet, alistFind, hp, hp', h, hk]
      · simp [alistSet, alistFind, hp, hp', h, hk, ih]

theorem alistFind_mapAt_self {α : Type} (k : Nat) (g : α → α) (l : List (Nat × α)) :
    alistFind k (alistMapAt k g l) = (alistFind k l).map g := by
  induction l with
  | nil => rfl
  | cons p ps ih =>
    by_cases h : p.1 = k
    · simp [alistMapAt, alistFind, h]
    · simp [alistMapAt, alistFind, h, ih]

theorem alistFind_mapAt_ne {α : Type} {k' k : Nat} (g : α → α) (l : List (Nat × α))
    (h : k' ≠ k) : alistFind k' (alistMapAt k g l) = alistFind k' l := by
  have hk : k ≠ k' := fun hh => h hh.symm
  induction l with
  | nil => rfl
  | cons p ps ih =>
    by_cases hp : p.1 = k
    · have hp' : p.1 ≠ k' := by rw [hp]; exact hk
      simp [alistMapAt, alistFind, hp, hp', h, hk, ih]
    · by_cases hp' : p.1 = k'
      · simp [alistMapAt, alistFind, hp, hp', h, hk]
      · simp [alistMapAt, alistFind, hp, hp', h, hk, ih]

theorem alistFind_remove_self {α : Type} (k : Nat) (l : List (Nat × α)) :
    alistFind k (alistRemove k l) = none := by
  induction l with
  | nil => rfl
  | cons p ps ih =>
    by_cases hp : p.1 = k
    · simpa [alistRemove, hp] using ih
    · simpa [alistRemove, alistFind, hp] using ih

theorem alistFind_remove_ne {α : Type} {k' k : Nat} (l : List (Nat × α))
    (h : k' ≠ k) : alistFind k' (alistRemove k l) = alistFind k' l := by
  have hk : k ≠ k' := fun hh => h hh.symm
  induction l with
  | nil => rfl
  | cons p ps ih =>
    by_cases hp : p.1 = k
    · have hp' : p.1 ≠ k' := by rw [hp]; exact hk
      simp [alistRemove, alistFind, hp, hp', h, hk, ih]
    · by_cases hp' : p.1 = k'
      · simp [alistRemove, alistFind, hp, hp', h, hk]
      · simp [alistRemove, alistFind, hp, hp', h, hk, ih]

theorem alistSet_keys {α : Type} (k : Nat) (v : α) (l : List (Nat × α)) :
    (alistSet k v l).map Prod.fst = l.map Prod.fst := by
  induction l with
  | nil => rfl
  | cons p ps ih =>
    by_cases hp : p.1 = k
    · simp [alistSet, hp, ih]
    · simp [alistSet, hp, ih]

theorem mem_alistSet {α : Type} {p : Nat × α} {k : Nat} {v : α}
    {l : List (Nat × α)} (h : p ∈ alistSet k v l) :
    p = (k, v) ∨ (p ∈ l ∧ p.1 ≠ k) := by
  induction l with
  | nil => cases h
  | cons q qs ih =>
    by_cases hq : q.1 = k
    · simp only [alistSet, hq, if_pos, List.mem_cons] at h
      rcases h with h | h
      · exact Or.inl h
      · rcases ih h with h' | h'
        · exact Or.inl h'
        · exact Or.inr ⟨List.mem_cons_of_mem _ h'.1, h'.2⟩
    · simp only [alistSet, hq, if_neg, List.mem_cons, not_false_iff] at h
      rcases h with h | h
      · subst h; exact Or.inr ⟨List.mem_cons_self _ _, hq⟩
      · rcases ih h with h' | h'
        · exact Or.inl h'
        · exact Or.inr ⟨List.mem_cons_of_mem _ h'.1, h'.2⟩

theorem mem_alistSet_of_ne {α : Type} {p : Nat × α} {k : Nat} (v : α)
    {l : List (Nat × α)} (hmem : p ∈ l) (hne : p.1 ≠ k) :
    p ∈ alistSet k v l := by
  induction l with
  | nil => cases hmem
  | cons q qs ih =>
    rcases List.mem_cons.mp hmem with h | h
    · subst h
      simp [alistSet, hne]
    · by_cases hq : q.1 = k
      · simp only [alistSet, hq, if_pos]
        exact List.mem_cons_of_mem _ (ih h)
      · simp only [alistSet, hq, if_neg, not_false_iff]
        exact List.mem_cons_of_mem _ (ih h)

theorem mem_alistSet_self {α : Type} {k : Nat} {x : α} (v : α)
    {l : List (Nat × α)} (hmem : (k, x) ∈ l) : (k, v) ∈ alistSet k v l := by
  induction l with
  | nil => cases hmem
  | cons q qs ih =>
    rcases List.mem_cons.mp hmem with h | h
    · have : q.1 = k := by rw [← h]
      simp [alistSet, this]
    · by_cases hq : q.1 = k
      · simp only [alistSet, hq, if_pos]
        exact List.mem_cons_of_mem _ (ih h)
      · simp only [alistSet, hq, if_neg, not_false_iff]
        exact List.mem_cons_of_mem _ (ih h)

theorem alistFind_mem {α : Type} {k : Nat} {v : α} {l : List (Nat × α)}
    (h : alistFind k l = some v) : (k, v) ∈ l := by
  induction l with
  | nil => cases h
  | cons p ps ih =>
    by_cases hp : p.1 = k
    · simp only [alistFind, hp, if_pos, Option.some.injEq] at h
      subst h
      have : p = (k, p.2) := by
        cases p; simp_all
      rw [← this]
      exact List.mem_cons_self _ _
    · simp only [alistFind, hp, if_neg, not_false_iff] at h
      exact List.mem_cons_of_mem _ (ih h)

theorem alist_mem_unique {α : Type} {k : Nat} {x y : α} {l : List (Nat × α)}
    (hnd : (l.map Prod.fst).Nodup) (hx : (k, x) ∈ l) (hy : (k, y) ∈ l) :
    x = y := by
  induction l with
  | nil => cases hx
  | cons p ps ih =>
    simp only [List.map_cons, List.nodup_cons] at hnd
    rcases List.mem_cons.mp hx with hx' | hx' <;>
      rcases List.mem_cons.mp hy with hy' | hy'
    · rw [← hx'] at hy'
      exact congrArg Prod.snd hy'.symm
    · exfalso
      exact hnd.1 (by simpa [← hx'] using List.mem_map_of_mem Prod.fst hy')
    · exfalso
      exact hnd.1 (by simpa [← hy'] using List.mem_map_of_mem Prod.fst hx')
    · exact ih hnd.2 hx' hy'

theorem alistFind_eq_of_mem {α : Type} {k : Nat} {v : α} {l : List (Nat × α)}
    (hnd : (l.map Prod.fst).Nodup) (hmem : (k, v) ∈ l) :
    alistFind k l = some v := by
  induction l with
  | nil => cases hmem
  | cons p ps ih =>
    simp only [List.map_cons, List.nodup_cons] at hnd
    rcases List.mem_cons.mp hmem with h | h
    · simp [alistFind, ← h]
    · have hp : p.1 ≠ k := by
        intro hq
        exact hnd.1 (by simpa [hq] using List.mem_map_of_mem Prod.fst h)
      simp [alistFind, hp, ih hnd.2 h]

theorem alistSet_of_find_none {α : Type} {k : Nat} (v : α) {l : List (Nat × α)}
    (h : alistFind k l = none) : alistSet k v l = l := by
  induction l with
  | nil => rfl
  | cons p ps ih =>
    by_cases hp : p.1 = k
    · simp [alistFind, hp] at h
    · simp only [alistFind, hp, if_neg, not_false_iff] at h
      simp [alistSet, hp, ih h]

theorem alistSet_eq_self {α : Type} {k : Nat} {v : α} {l : List (Nat × α)}
    (hnd : (l.map Prod.fst).Nodup) (h : alistFind k l = some v) :
    alistSet k v l = l := by
  induction l with
  | nil => rfl
  | cons p ps ih =>
    simp only [List.map_cons, List.nodup_cons] at hnd
    by_cases hp : p.1 = k
    · simp only [alistFind, hp, if_pos, Option.some.injEq] at h
      have hknotin : k ∉ ps.map Prod.fst := hp ▸ hnd.1
      have hnone : alistFind k ps = none := by
        cases hfind : alistFind k ps with
        | none => rfl
        | some x =>
          have hin : k ∈ ps.map Prod.fst :=
            List.mem_map.mpr ⟨(k, x), alistFind_mem hfind, rfl⟩
          exact absurd hin hknotin
      have hpv : (k, v) = p := by
        cases p
        simp_all
      simp [alistSet, hp, alistSet_of_find_none v hnone, hpv]
    · simp only [alistFind, hp, if_neg, not_false_iff] at h
      simp [alistSet, hp, ih hnd.2 h]

theorem mem_alistRemove_of_ne {α : Type} {p : Nat × α} {k : Nat}
    {l : List (Nat × α)} (hmem : p ∈ l) (hne : p.1 ≠ k) :
    p ∈ alistRemove k l := by
  induction l with
  | nil => cases hmem
  | cons q qs ih =>
    rcases List.mem_cons.mp hmem with h | h
    · subst h
      simp [alistRemove, hne]
    · by_cases hq : q.1 = k
      · simpa [alistRemove, hq] using ih h
      · simp only [alistRemove, hq, if_neg, not_false_iff]
        exact List.mem_cons_of_mem _ (ih h)

theorem mem_of_mem_alistRemove {α : Type} {p : Nat × α} {k : Nat}
    {l : List (Nat × α)} (h : p ∈ alistRemove k l) : p ∈ l ∧ p.1 ≠ k := by
  induction l with
  | nil => cases h
  | cons q qs ih =>
    by_cases hq : q.1 = k
    · simp only [alistRemove, hq, if_pos] at h
      exact ⟨List.mem_cons_of_mem _ (ih h).1, (ih h).2⟩
    · simp only [alistRemove, hq, if_neg, not_false_iff, List.mem_cons] at h
      rcases h with h | h
      · subst h; exact ⟨List.mem_cons_self _ _, hq⟩
      · exact ⟨List.mem_cons_of_mem _ (ih h).1, (ih h).2⟩

theorem alistRemove_keys_sublist {α : Type} (k : Nat) (l : List (Nat × α)) :
    ((alistRemove k l).map Prod.fst).Sublist (l.map Prod.fst) := by
  induction l with
  | nil => simp [alistRemove]
  | cons q qs ih =>
    by_cases hq : q.1 = k
    · simp only [alistRemove, hq, if_pos, List.map_cons]
      exact ih.cons _
    · simp only [alistRemove, hq, if_neg, not_false_iff, List.map_cons]
      exact ih.cons₂ _

theorem alistMapAt_keys {α : Type} (k : Nat) (g : α → α) (l : List (Nat × α)) :
    (alistMapAt k g l).map Prod.fst = l.map Prod.fst := by
  induction l with
  | nil => rfl
  | cons p ps ih =>
    by_cases hp : p.1 = k
    · simp [alistMapAt, hp, ih]
    · simp [alistMapAt, hp, ih]

theorem mem_alistMapAt {α : Type} {p : Nat × α} {k : Nat} {g : α → α}
    {l : List (Nat × α)} (h : p ∈ alistMapAt k g l) :
    (∃ q, q ∈ l ∧ q.1 = k ∧ p = (q.1, g q.2)) ∨ (p ∈ l ∧ p.1 ≠ k) := by
  induction l with
  | nil => cases h
  | cons q qs ih =>
    by_cases hq : q.1 = k
    · simp only [alistMapAt, hq, if_pos, List.mem_cons] at h
      rcases h with h | h
      · exact Or.inl ⟨q, List.mem_cons_self _ _, hq, by rw [hq]; exact h⟩
      · rcases ih h with ⟨r, hr, hrk, hrp⟩ | h'
        · exact Or.inl ⟨r, List.mem_cons_of_mem _ hr, hrk, hrp⟩
        · exact Or.inr ⟨List.mem_cons_of_mem _ h'.1, h'.2⟩
    · simp only [alistMapAt, hq, if_neg, not_false_iff, List.mem_cons] at h
      rcases h with h | h
      · subst h; exact Or.inr ⟨List.mem_cons_self _ _, hq⟩
      · rcases ih h with ⟨r, hr, hrk, hrp⟩ | h'
        · exact Or.inl ⟨r, List.mem_cons_of_mem _ hr, hrk, hrp⟩
        · exact Or.inr ⟨List.mem_cons_of_mem _ h'.1, h'.2⟩

theorem mem_repointSlots {q' : Nat × Option Nat} {targets : List Nat}
    {retK : Nat} {l : List (Nat × Option Nat)} (h : q' ∈ repointSlots targets retK l) :
    ∃ q, q ∈ l ∧ q' = (if q.1 ∈ targets then (q.1, some retK) else q) := by
  induction l with
  | nil => cases h
  | cons q qs ih =>
    simp only [repointSlots, List.mem_cons] at h
    rcases h with h | h
    · exact ⟨q, List.mem_cons_self _ _, h⟩
    · rcases ih h with ⟨r, hr, hrq⟩
      exact ⟨r, List.mem_cons_of_mem _ hr, hrq⟩

theorem repointSlots_mem {q : Nat × Option Nat} {targets : List Nat}
    {retK : Nat} {l : List (Nat × Option Nat)} (h : q ∈ l) :
    (if q.1 ∈ targets then (q.1, some retK) else q) ∈ repointSlots targets retK l := by
  induction l with
  | nil => cases h
  | cons r rs ih =>
    rcases List.mem_cons.mp h with h | h
    · subst h
      exact List.mem_cons_self _ _
    · exact List.mem_cons_of_mem _ (ih h)

theorem repointSlots_keys (targets : List Nat) (retK : Nat)
    (l : List (Nat × Option Nat)) :
    (repointSlots targets retK l).map Prod.fst = l.map Prod.fst := by
  induction l with
  | nil => rfl
  | cons q qs ih =>
    by_cases hq : q.1 ∈ targets
    · simp [repointSlots, hq, ih]
    · simp [repointSlots, hq, ih]

/-! Projections of the RefSet instances reduce definitionally; stated
as lemmas for rewriting. -/

theorem fmts_setRefs (x : AVFilterFormats) (l : List Nat) :
    (RefSet.setRefs x l).formats = x.formats := rfl

theorem fmts_refs_setRefs (x : AVFilterFormats) (l : List Nat) :
    (RefSet.setRefs x l).refs = l := rfl

theorem fmts_refs_eq (x : AVFilterFormats) : RefSet.refs x = x.refs := rfl

theorem cl_setRefs_channel_layouts (x : AVFilterChannelLayouts) (l : List Nat) :
    (RefSet.setRefs x l).channel_layouts = x.channel_layouts := rfl

theorem cl_setRefs_all_layouts (x : AVFilterChannelLayouts) (l : List Nat) :
    (RefSet.setRefs x l).all_layouts = x.all_layouts := rfl

theorem cl_setRefs_all_counts (x : AVFilterChannelLayouts) (l : List Nat) :
    (RefSet.setRefs x l).all_counts = x.all_counts := rfl

theorem cl_refs_setRefs (x : AVFilterChannelLayouts) (l : List Nat) :
    (RefSet.setRefs x l).refs = l := rfl

theorem cl_refs_eq (x : AVFilterChannelLayouts) : RefSet.refs x = x.refs := rfl

/-! World lemmas: MERGE_REF and consistency preservation. -/

theorem mergeRef_find_ret {F : Type} [RefSet F] (w : World F) {retK aK : Nat}
    {retObj aObj : F} (hne : retK ≠ aK)
    (hret : alistFind retK w.sets = some retObj)
    (ha : alistFind aK w.sets = some aObj) :
    alistFind retK (MERGE_REF_W w retK aK).sets
      = some (RefSet.setRefs retObj (RefSet.refs retObj ++ RefSet.refs aObj)) := by
  simp only [MERGE_REF_W, ha]
  rw [alistFind_mapAt_self, alistFind_remove_ne _ hne, hret]
  rfl

theorem mergeRef_find_donor {F : Type} [RefSet F] (w : World F) {retK aK : Nat}
    {aObj : F} (hne : retK ≠ aK)
    (ha : alistFind aK w.sets = some aObj) :
    alistFind aK (MERGE_REF_W w retK aK).sets = none := by
  simp only [MERGE_REF_W, ha]
  rw [alistFind_mapAt_ne _ _ (fun hh => hne hh.symm), alistFind_remove_self]

theorem mergeRef_find_other {F : Type} [RefSet F] (w : World F) {retK aK k : Nat}
    {aObj : F} (hk1 : k ≠ retK) (hk2 : k ≠ aK)
    (ha : alistFind aK w.sets = some aObj) :
    alistFind k (MERGE_REF_W w retK aK).sets = alistFind k w.sets := by
  simp only [MERGE_REF_W, ha]
  rw [alistFind_mapAt_ne _ _ hk1, alistFind_remove_ne _ hk2]

theorem mergeRef_slots_repointed {F : Type} [RefSet F] (w : World F)
    {retK aK : Nat} {aObj : F} (hc : Consistent w)
    (ha : alistFind aK w.sets = some aObj) :
    ∀ q ∈ w.slots, (q.2 = some retK ∨ q.2 = some aK) →
      (q.1, some retK) ∈ (MERGE_REF_W w retK aK).slots := by
  obtain ⟨-, -, -, -, hbwd⟩ := hc
  intro q hq hcase
  simp only [MERGE_REF_W, ha]
  by_cases hmem : q.1 ∈ RefSet.refs aObj
  · have := @repointSlots_mem q (RefSet.refs aObj) retK w.slots hq
    simpa [hmem] using this
  · rcases hcase with hcase | hcase
    · have := @repointSlots_mem q (RefSet.refs aObj) retK w.slots hq
      have hqeq : q = (q.1, some retK) := by
        cases q
        simp_all
      rw [hqeq] at this ⊢
      simpa [hmem] using this
    · exact absurd (hbwd q hq (aK, aObj) (alistFind_mem ha) hcase) hmem

theorem mergeRef_donor_unreachable {F : Type} [RefSet F] (w : World F)
    {retK aK : Nat} {aObj : F} (hc : Consistent w) (hne : retK ≠ aK)
    (ha : alistFind aK w.sets = some aObj) :
    ∀ q ∈ (MERGE_REF_W w retK aK).slots, q.2 ≠ some aK := by
  obtain ⟨-, -, -, -, hbwd⟩ := hc
  intro q' hq'
  simp only [MERGE_REF_W, ha] at hq'
  rcases mem_repointSlots hq' with ⟨q, hq, hq'eq⟩
  by_cases hmem : q.1 ∈ RefSet.refs aObj
  · rw [hq'eq]
    simp [hmem]
    exact hne
  · rw [hq'eq]
    simp only [hmem, if_neg, not_false_iff]
    intro hcase
    exact absurd (hbwd q hq (aK, aObj) (alistFind_mem ha) hcase) hmem

theorem consistent_setSameRefs {F : Type} [RefSet F] (w : World F) (k : Nat)
    {f f' : F} (hc : Consistent w) (hf : alistFind k w.sets = some f)
    (hrefs : RefSet.refs f' = RefSet.refs f) :
    Consistent { w with sets := alistSet k f' w.sets } := by
  obtain ⟨hndS, hndL, hrnd, hfwd, hbwd⟩ := hc
  have hmemk : (k, f) ∈ w.sets := alistFind_mem hf
  refine ⟨?_, hndL, ?_, ?_, ?_⟩
  · simpa [alistSet_keys] using hndS
  · intro p hp
    rcases mem_alistSet hp with h | h
    · rw [h]
      simpa [hrefs] using hrnd (k, f) hmemk
    · exact hrnd p h.1
  · intro p hp s hs
    rcases mem_alistSet hp with h | h
    · rw [h] at hs ⊢
      simp only [hrefs] at hs
      simpa using hfwd (k, f) hmemk s hs
    · exact hfwd p h.1 s hs
  · intro q hq p hp hqp
    rcases mem_alistSet hp with h | h
    · rw [h] at hqp ⊢
      simp only at hqp
      simpa [hrefs] using hbwd q hq (k, f) hmemk (by simpa using hqp)
    · exact hbwd q hq p h.1 hqp

/-! Bridging lemmas between the executable scans and their set-theoretic
readings. -/

theorem int_contains_iff {l : List Int} {x : Int} : l.contains x = true ↔ x ∈ l := by
  induction l with
  | nil => simp
  | cons y ys ih =>
    rw [List.contains_cons]
    simp only [Bool.or_eq_true, beq_iff_eq, ih, List.mem_cons]

theorem hasDup_iff {l : List Int} : hasDup l = true ↔ ¬ l.Nodup := by
  induction l with
  | nil => simp [hasDup]
  | cons x xs ih =>
    simp [hasDup, List.nodup_cons, ih, int_contains_iff]
    tauto

theorem chroma2_iff {desc : Int → PixFmtDesc} {af bf : List Int} :
    chroma2 desc af bf = true ↔
      ∃ fa ∈ af, ∃ fb ∈ bf, 1 < (desc fa).nb_components ∧ 1 < (desc fb).nb_components := by
  simp [chroma2, List.any_eq_true]

theorem chroma1_iff {desc : Int → PixFmtDesc} {af bf : List Int} :
    chroma1 desc af bf = true ↔
      ∃ f, f ∈ af ∧ f ∈ bf ∧ 1 < (desc f).nb_components := by
  simp only [chroma1, List.any_eq_true, Bool.and_eq_true, decide_eq_true_eq, beq_iff_eq]
  constructor
  · rintro ⟨fa, hfa, fb, hfb, heq, hcomp⟩
    exact ⟨fa, hfa, heq ▸ hfb, hcomp⟩
  · rintro ⟨f, hfa, hfb, hcomp⟩
    exact ⟨f, hfa, f, hfb, rfl, hcomp⟩

theorem alpha2_iff {desc : Int → PixFmtDesc} {af bf : List Int} :
    alpha2 desc af bf = true ↔
      ∃ fa ∈ af, ∃ fb ∈ bf, (desc fa).hasAlpha = true ∧ (desc fb).hasAlpha = true := by
  simp [alpha2, List.any_eq_true]

theorem alpha1_iff {desc : Int → PixFmtDesc} {af bf : List Int} :
    alpha1 desc af bf = true ↔
      ∃ f, f ∈ af ∧ f ∈ bf ∧ (desc f).hasAlpha = true := by
  simp only [alpha1, List.any_eq_true, Bool.and_eq_true, beq_iff_eq]
  constructor
  · rintro ⟨fa, hfa, fb, hfb, heq, halpha⟩
    exact ⟨fa, hfa, heq ▸ hfb, halpha⟩
  · rintro ⟨f, hfa, hfb, halpha⟩
    exact ⟨f, hfa, f, hfb, rfl, halpha⟩

theorem clPass1_nil : ∀ (a b : List ChLayout), (clPass1 a b).2.2 = [] →
    (clPass1 a b).1 = a ∧ (clPass1 a b).2.1 = b := by
  intro a
  induction a with
  | nil =>
    intro b _
    exact ⟨rfl, rfl⟩
  | cons x xs ih =>
    intro b h
    by_cases hx : KNOWN x
    · cases hidx : b.findIdx? (fun y => y == x) with
      | some j => simp [clPass1, hx, hidx] at h
      | none =>
        simp only [clPass1, hx, hidx, if_pos] at h ⊢
        exact ⟨by rw [(ih b h).1], (ih b h).2⟩
    · simp only [clPass1, hx, if_neg, Bool.false_eq_true, not_false_iff] at h ⊢
      exact ⟨by rw [(ih b h).1], (ih b h).2⟩

theorem formatsRef_fail_spec {F : Type} [RefSet F] (w : World F) (k ref : Nat)
    (f : F) (hf : alistFind k w.sets = some f) :
    (FORMATS_REF_W w (some k) ref false).1 = AVERROR ENOMEM ∧
    (FORMATS_REF_W w (some k) ref false).2.slots = w.slots ∧
    (RefSet.refs f = [] →
      alistFind k (FORMATS_REF_W w (some k) ref false).2.sets = none) ∧
    (RefSet.refs f ≠ [] → (FORMATS_REF_W w (some k) ref false).2 = w) := by
  simp only [FORMATS_REF_W, hf]
  by_cases hrefs : RefSet.refs f = []
  · refine ⟨rfl, by simp [hrefs], fun _ => ?_, fun h => absurd hrefs h⟩
    simp [hrefs, alistFind_remove_self]
  · exact ⟨rfl, by simp [hrefs], fun h => absurd h hrefs, fun _ => by simp [hrefs]⟩

/-- C10: an addOwner call with a NULL set returns AVERROR(ENOMEM) and
leaves the world untouched; when growing the owner array fails, the
call returns AVERROR(ENOMEM), the slot table is untouched (the
requesting slot is not attached), a set with refcount 0 is destroyed,
and a set that has owners is left entirely unchanged — all owners and
its refcount intact.  Stated for both ff_formats_ref and
ff_channel_layouts_ref. -/
theorem claim_C10 :
    (∀ (w : World AVFilterFormats) (ref : Nat) (aok : Bool),
      ff_formats_ref w none ref aok = (AVERROR ENOMEM, w)) ∧
    (∀ (w : World AVFilterFormats) (k ref : Nat) (f : AVFilterFormats),
      alistFind k w.sets = some f →
      (ff_formats_ref w (some k) ref false).1 = AVERROR ENOMEM ∧
      (ff_formats_ref w (some k) ref false).2.slots = w.slots ∧
      (f.refs = [] → alistFind k (ff_formats_ref w (some k) ref false).2.sets = none) ∧
      (f.refs ≠ [] → (ff_formats_ref w (some k) ref false).2 = w)) ∧
    (∀ (w : World AVFilterChannelLayouts) (ref : Nat) (aok : Bool),
      ff_channel_layouts_ref w none ref aok = (AVERROR ENOMEM, w)) ∧
    (∀ (w : World AVFilterChannelLayouts) (k ref : Nat) (f : AVFilterChannelLayouts),
      alistFind k w.sets = some f →
      (ff_channel_layouts_ref w (some k) ref false).1 = AVERROR ENOMEM ∧
      (ff_channel_layouts_ref w (some k) ref false).2.slots = w.slots ∧
      (f.refs = [] → alistFind k (ff_channel_layouts_ref w (some k) ref false).2.sets = none) ∧
      (f.refs ≠ [] → (ff_channel_layouts_ref w (some k) ref false).2 = w)) := by
  exact ⟨fun w ref aok => rfl,
    fun w k ref f hf => formatsRef_fail_spec w k ref f hf,
    fun w ref aok => rfl,
    fun w k ref f hf => formatsRef_fail_spec w k ref f hf⟩

/-- Witness for claim_C10: a set with refcount 0 is destroyed on
allocation failure, and a set with an owner survives unchanged. -/
theorem claim_C10_witness :
    alistFind 3 ((ff_formats_ref ⟨[(3, ⟨[5], []⟩)], [(20, none)]⟩ (some 3) 20 false).2.sets)
      = none ∧
    (ff_formats_ref ⟨[(3, ⟨[5], [21]⟩)], [(20, none), (21, some 3)]⟩ (some 3) 20 false).2
      = ⟨[(3, ⟨[5], [21]⟩)], [(20, none), (21, some 3)]⟩ :=
  ⟨(claim_C10.2.1 ⟨[(3, ⟨[5], []⟩)], [(20, none)]⟩ 3 20 ⟨[5], []⟩ (by decide)).2.2.1 (by decide),
   (claim_C10.2.1 ⟨[(3, ⟨[5], [21]⟩)], [(20, none), (21, some 3)]⟩ 3 20 ⟨[5], [21]⟩
      (by decide)).2.2.2 (by decide)⟩

/-- C9 (amended): check_list — the validator of pixel-format and
sample-format lists — rejects a non-null set with AVERROR(EINVAL)
exactly when it is empty or contains two equal identifiers, while
ff_formats_check_sample_rates exempts the empty list (an empty
sample-rate set is unconstrained and passes), so a sample-rate set is
rejected exactly when it is non-empty and carries a duplicate. -/
theorem claim_C9 :
    (∀ f : AVFilterFormats,
      ff_formats_check_pixel_formats (some f) = AVERROR EINVAL ↔
        (f.formats = [] ∨ ¬ f.formats.Nodup)) ∧
    (∀ f : AVFilterFormats,
      ff_formats_check_sample_formats (some f) = AVERROR EINVAL ↔
        (f.formats = [] ∨ ¬ f.formats.Nodup)) ∧
    (∀ f : AVFilterFormats,
      ff_formats_check_sample_rates (some f) = AVERROR EINVAL ↔
        (f.formats ≠ [] ∧ ¬ f.formats.Nodup)) := by
  have hcheck : ∀ f : AVFilterFormats,
      check_list (some f) = AVERROR EINVAL ↔ (f.formats = [] ∨ ¬ f.formats.Nodup) := by
    intro f
    by_cases hemp : f.formats = []
    · simp [check_list, hemp]
    · by_cases hdup : hasDup f.formats
      · simp [check_list, hemp, hdup, hasDup_iff.mp hdup]
      · have hnd : f.formats.Nodup := by
          by_contra h
          exact hdup (hasDup_iff.mpr h)
        have hne : (0 : Int) ≠ AVERROR EINVAL := by decide
        simp [check_list, hemp, hdup, hnd, hne]
  refine ⟨hcheck, hcheck, ?_⟩
  intro f
  by_cases hemp : f.formats = []
  · have hne : (0 : Int) ≠ AVERROR EINVAL := by decide
    simp [ff_formats_check_sample_rates, hemp, hne]
  · rw [show ff_formats_check_sample_rates (some f) = check_list (some f) by
      simp [ff_formats_check_sample_rates, hemp]]
    rw [hcheck f]
    simp [hemp]

/-- Counterexample to C9 as stated: the empty sample-rate set is a
non-null scalar set that validation accepts (returns 0) instead of
rejecting with AVERROR(EINVAL). -/
theorem claim_C9_counterexample :
    ff_formats_check_sample_rates (some { formats := [], refs := [] }) = 0 ∧
    (0 : Int) ≠ AVERROR EINVAL := by decide

/-- Witness for claim_C9: a duplicated pixel-format list is rejected. -/
theorem claim_C9_witness :
    ff_formats_check_pixel_formats (some { formats := [5, 5], refs := [] })
      = AVERROR EINVAL :=
  (claim_C9.1 { formats := [5, 5], refs := [] }).mpr (by decide)

/-- C4: evaluation of merge_channel_layouts at the failing input.  A is
the all_layouts wildcard (key 1, owner slot 10); B is the concrete set
[GenericCount(2), Known stereo] (key 2, owner slot 11).  The in-place
filter loop keeps the generic-count entry and drops the known layout
(the copy lands at the post-increment index), so the surviving set's
entries are [GenericCount(2)] — not the known-layout entries of B as
the claim (and the code's own comment, keep only known layouts in b)
requires. -/
theorem claim_C4 :
    merge_channel_layouts
      ⟨[(1, ⟨[], true, false, [10]⟩),
        (2, ⟨[ChLayout.generic 2, ChLayout.known 1 2], false, false, [11]⟩)],
       [(10, some 1), (11, some 2)]⟩ 1 2 true true
    = (1, ⟨[(2, ⟨[ChLayout.generic 2], false, false, [11, 10]⟩)],
           [(10, some 2), (11, some 2)]⟩) ∧
    [ChLayout.generic 2] ≠ [ChLayout.known 1 2] := by decide

/-- C3 (amended): a merge invocation that returns 0 (incompatible)
leaves the whole ownership world — entries, owners and refcount of both
operands included — exactly as it was before the call; stated for the
scalar mergers in every mode and, under unique instance keys, for the
channel-layout merger.  The negative AVERROR(ENOMEM) paths are
excluded: they can return with an operand's entries already narrowed in
place (see the counterexample). -/
theorem claim_C3 :
    (∀ (desc : Int → PixFmtDesc) (w : World AVFilterFormats) (ka kb : Nat)
        (ty : AVMediaType) (check aok : Bool),
      (merge_formats_internal desc w ka kb ty check aok).1 = 0 →
      (merge_formats_internal desc w ka kb ty check aok).2 = w) ∧
    (∀ (w : World AVFilterFormats) (ka kb : Nat) (check aok : Bool),
      (merge_samplerates_internal w ka kb check aok).1 = 0 →
      (merge_samplerates_internal w ka kb check aok).2 = w) ∧
    (∀ (w : World AVFilterChannelLayouts) (ka kb : Nat) (aL aR : Bool),
      (w.sets.map Prod.fst).Nodup →
      (merge_channel_layouts w ka kb aL aR).1 = 0 →
      (merge_channel_layouts w ka kb aL aR).2 = w) := by
  have hone : (1 : Int) ≠ 0 := by decide
  have hnem : (AVERROR ENOMEM : Int) ≠ 0 := by decide
  refine ⟨?_, ?_, ?_⟩
  · intro desc w ka kb ty check aok
    unfold merge_formats_internal
    split
    · intro _
      rfl
    · split
      · dsimp only
        split
        · intro _
          rfl
        · split
          · intro _
            rfl
          · split
            · intro _
              rfl
            · split
              · intro h
                exact absurd h hone
              · intro h
                exact absurd h hnem
      · intro _
        rfl
  · intro w ka kb check aok
    unfold merge_samplerates_internal
    split
    · intro _
      rfl
    · split
      · dsimp only
        split
        · split
          · intro _
            rfl
          · split
            · intro h
              exact absurd h hone
            · intro h
              exact absurd h hnem
        · split
          · intro _
            rfl
          · split
            · intro _
              rfl
            · split
              · intro h
                exact absurd h hone
              · intro h
                exact absurd h hnem
      · intro _
        rfl
  · intro w ka kb aL aR hnd
    unfold merge_channel_layouts merge_cl_concrete merge_cl_generic
    split
    · intro _
      rfl
    · split
      · split
        · -- concrete/concrete branch
          split
          · intro h
            exact absurd h hnem
          · dsimp only
            split
            · -- empty result: nothing was cleared in pass 1, both
              -- operands keep their arrays and the world is unchanged
              intro hzero
              rename_i hka xa xb a b heqa heqb hflags hAL hres
              have h1 : (clPass1 a.channel_layouts b.channel_layouts).2.2 = [] := by
                have t1 := (List.append_eq_nil.mp hres).1
                have t2 := (List.append_eq_nil.mp t1).1
                exact (List.append_eq_nil.mp t2).1
              obtain ⟨ha1, hb1⟩ := clPass1_nil _ _ h1
              dsimp only
              rw [ha1, hb1]
              have ea : ({ channel_layouts := a.channel_layouts, all_layouts := a.all_layouts,
                           all_counts := a.all_counts, refs := a.refs } : AVFilterChannelLayouts) = a := rfl
              have eb : ({ channel_layouts := b.channel_layouts, all_layouts := b.all_layouts,
                           all_counts := b.all_counts, refs := b.refs } : AVFilterChannelLayouts) = b := rfl
              rw [ea, eb, alistSet_eq_self hnd heqa, alistSet_eq_self hnd heqb]
            · split
              · split
                · intro h
                  exact absurd h hone
                · intro h
                  exact absurd h hone
              · intro h
                exact absurd h hnem
        · -- a wildcard flag is set: one of the two generic calls runs
          split
          all_goals
            split
            · dsimp only
              split
              · intro _
                rfl
              · split
                · intro h
                  exact absurd h hone
                · intro h
                  exact absurd h hnem
            · split
              · intro h
                exact absurd h hone
              · intro h
                exact absurd h hnem
      · intro _
        rfl

/-- Counterexample to C3 as stated: a merge that fails with
AVERROR(ENOMEM) — the owner-array reallocation inside MERGE_REF — does
not leave the operands as they were: set 1's entries have already been
narrowed in place from [5, 7] to [7]. -/
theorem claim_C3_counterexample :
    merge_formats_internal (fun _ => ⟨false, 1⟩)
      ⟨[(1, ⟨[5, 7], [10]⟩), (2, ⟨[7, 9], [11]⟩)], [(10, some 1), (11, some 2)]⟩
      1 2 AVMediaType.audio false false
    = (AVERROR ENOMEM,
       ⟨[(1, ⟨[7], [10]⟩), (2, ⟨[7, 9], [11]⟩)], [(10, some 1), (11, some 2)]⟩) ∧
    ([7] : List Int) ≠ [5, 7] ∧ AVERROR ENOMEM < 0 := by decide

/-- Witness for claim_C3: an incompatible scalar merge (no common
format) returns with the world untouched. -/
theorem claim_C3_witness :
    (merge_formats_internal (fun _ => ⟨false, 1⟩)
      ⟨[(1, ⟨[5], [10]⟩), (2, ⟨[9], [11]⟩)], [(10, some 1), (11, some 2)]⟩
      1 2 AVMediaType.audio false true).2
    = ⟨[(1, ⟨[5], [10]⟩), (2, ⟨[9], [11]⟩)], [(10, some 1), (11, some 2)]⟩ :=
  claim_C3.1 (fun _ => ⟨false, 1⟩)
    ⟨[(1, ⟨[5], [10]⟩), (2, ⟨[9], [11]⟩)], [(10, some 1), (11, some 2)]⟩
    1 2 AVMediaType.audio false true (by decide)

/-- C1: for distinct scalar format sets (pixel or sample formats) with
at least one common identifier and — for pixel formats — no
chroma/alpha loss, the merge succeeds (returns 1) and the surviving
instance (a's) carries exactly a's entries filtered to those also
present in b: the common identifiers in a's relative order, with no
entry value contributed by b. -/
theorem claim_C1 (desc : Int → PixFmtDesc) (w : World AVFilterFormats)
    (ka kb : Nat) (a b : AVFilterFormats) (ty : AVMediaType)
    (hne : ka ≠ kb)
    (ha : alistFind ka w.sets = some a) (hb : alistFind kb w.sets = some b)
    (hcommon : ∃ f, f ∈ a.formats ∧ f ∈ b.formats)
    (hnoloss : ty = AVMediaType.video → lossDetected desc a.formats b.formats = false) :
    (merge_formats_internal desc w ka kb ty false true).1 = 1 ∧
    ∃ s, alistFind ka (merge_formats_internal desc w ka kb ty false true).2.sets = some s ∧
      s.formats = a.formats.filter (fun f => b.formats.contains f) := by
  have hfil : a.formats.filter (fun f => b.formats.contains f) ≠ [] := by
    obtain ⟨f, hfa, hfb⟩ := hcommon
    intro hnil
    have hmem : f ∈ a.formats.filter (fun f => b.formats.contains f) :=
      List.mem_filter.mpr ⟨hfa, int_contains_iff.mpr hfb⟩
    rw [hnil] at hmem
    cases hmem
  have hcond : (decide (ty = AVMediaType.video) && lossDetected desc a.formats b.formats) = false := by
    by_cases hty : ty = AVMediaType.video
    · simp [hty, hnoloss hty]
    · simp [hty]
  have hm : merge_formats_internal desc w ka kb ty false true
      = (1, MERGE_REF_W
          ⟨alistSet ka ⟨a.formats.filter (fun f => b.formats.contains f), a.refs⟩ w.sets,
           w.slots⟩ ka kb) := by
    simp only [merge_formats_internal, ha, hb]
    simp [hne, hcond, hfil]
    exact hcommon
  rw [hm]
  have hfa' : alistFind ka
      (alistSet ka (⟨a.formats.filter (fun f => b.formats.contains f), a.refs⟩ : AVFilterFormats) w.sets)
      = some (⟨a.formats.filter (fun f => b.formats.contains f), a.refs⟩ : AVFilterFormats) := by
    rw [alistFind_set_self, ha]
    rfl
  have hfb' : alistFind kb
      (alistSet ka (⟨a.formats.filter (fun f => b.formats.contains f), a.refs⟩ : AVFilterFormats) w.sets)
      = some b := by
    rw [alistFind_set_ne _ _ (fun hh => hne hh.symm), hb]
  exact ⟨rfl, ⟨_, mergeRef_find_ret _ hne hfa' hfb', rfl⟩⟩

/-- Witness for claim_C1: merging {5, 7} with {7, 9} (sample formats)
survives as {7} on the first operand's instance. -/
theorem claim_C1_witness :
    (merge_formats_internal (fun _ => ⟨false, 1⟩)
      ⟨[(1, ⟨[5, 7], [10]⟩), (2, ⟨[7, 9], [11]⟩)], [(10, some 1), (11, some 2)]⟩
      1 2 AVMediaType.audio false true).1 = 1 ∧
    ∃ s, alistFind 1 (merge_formats_internal (fun _ => ⟨false, 1⟩)
      ⟨[(1, ⟨[5, 7], [10]⟩), (2, ⟨[7, 9], [11]⟩)], [(10, some 1), (11, some 2)]⟩
      1 2 AVMediaType.audio false true).2.sets = some s ∧
      s.formats = ([5, 7] : List Int).filter (fun f => ([7, 9] : List Int).contains f) :=
  claim_C1 (fun _ => ⟨false, 1⟩)
    ⟨[(1, ⟨[5, 7], [10]⟩), (2, ⟨[7, 9], [11]⟩)], [(10, some 1), (11, some 2)]⟩
    1 2 ⟨[5, 7], [10]⟩ ⟨[7, 9], [11]⟩ AVMediaType.audio
    (by decide) (by decide) (by decide) ⟨7, by decide, by decide⟩ (by decide)

/-- C2: when some format of a and some format of b are both
chroma-capable (more than one component) — or both alpha-capable — but
no common format carries that capability, the video merge returns 0
(incompatible) with both sets and the whole world untouched, even if
the naive intersection is non-empty. -/
theorem claim_C2 (desc : Int → PixFmtDesc) (w : World AVFilterFormats)
    (ka kb : Nat) (a b : AVFilterFormats) (aok : Bool)
    (hne : ka ≠ kb)
    (ha : alistFind ka w.sets = some a) (hb : alistFind kb w.sets = some b)
    (hloss :
      ((∃ fa ∈ a.formats, ∃ fb ∈ b.formats,
          1 < (desc fa).nb_components ∧ 1 < (desc fb).nb_components) ∧
        ¬ ∃ f, f ∈ a.formats ∧ f ∈ b.formats ∧ 1 < (desc f).nb_components) ∨
      ((∃ fa ∈ a.formats, ∃ fb ∈ b.formats,
          (desc fa).hasAlpha = true ∧ (desc fb).hasAlpha = true) ∧
        ¬ ∃ f, f ∈ a.formats ∧ f ∈ b.formats ∧ (desc f).hasAlpha = true)) :
    merge_formats_internal desc w ka kb AVMediaType.video false aok = (0, w) := by
  have hl : lossDetected desc a.formats b.formats = true := by
    unfold lossDetected
    rcases hloss with ⟨h2, h1⟩ | ⟨h2, h1⟩
    · have hc2 : chroma2 desc a.formats b.formats = true := chroma2_iff.mpr h2
      have hc1 : chroma1 desc a.formats b.formats = false := by
        cases hch : chroma1 desc a.formats b.formats
        · rfl
        · exact absurd (chroma1_iff.mp hch) h1
      simp [hc2, hc1]
    · have ha2 : alpha2 desc a.formats b.formats = true := alpha2_iff.mpr h2
      have ha1 : alpha1 desc a.formats b.formats = false := by
        cases hal : alpha1 desc a.formats b.formats
        · rfl
        · exact absurd (alpha1_iff.mp hal) h1
      simp [ha2, ha1]
  simp only [merge_formats_internal, ha, hb]
  simp [hne, hl]

/-- Witness for claim_C2 — the spec's own example: A = {yuv420p, gray8}
(encoded 0, 1), B = {rgb24, gray8} (encoded 2, 1); gray8 is the only
common format and carries no chroma, yet both sides offer chroma, so
the merge is rejected with both sets untouched. -/
theorem claim_C2_witness :
    merge_formats_internal (fun f => if f = 1 then ⟨false, 1⟩ else ⟨false, 3⟩)
      ⟨[(1, ⟨[0, 1], [10]⟩), (2, ⟨[2, 1], [11]⟩)], [(10, some 1), (11, some 2)]⟩
      1 2 AVMediaType.video false true
    = (0, ⟨[(1, ⟨[0, 1], [10]⟩), (2, ⟨[2, 1], [11]⟩)], [(10, some 1), (11, some 2)]⟩) :=
  claim_C2 (fun f => if f = 1 then ⟨false, 1⟩ else ⟨false, 3⟩)
    ⟨[(1, ⟨[0, 1], [10]⟩), (2, ⟨[2, 1], [11]⟩)], [(10, some 1), (11, some 2)]⟩
    1 2 ⟨[0, 1], [10]⟩ ⟨[2, 1], [11]⟩ true
    (by decide) (by decide) (by decide)
    (Or.inl ⟨⟨0, by decide, 2, by decide, by decide⟩, by
      rintro ⟨f, hfa, hfb, hcomp⟩
      simp only [List.mem_cons, List.not_mem_nil, or_false] at hfa hfb
      rcases hfa with rfl | rfl
      · rcases hfb with h | h <;> simp at h
      · simp at hcomp⟩)

/-- C7: merging sample-rate sets, the only empty-allowed mode, treats
an empty operand as unconstrained: the merge succeeds, the surviving
instance is the non-empty operand (b's when a is the empty one) with
its entries unchanged (empty-empty survives empty), the owners of both
operands are combined onto it, and the non-mutating probe
can_merge_samplerates reports 1 with the world untouched. -/
theorem claim_C7 (w : World AVFilterFormats) (ka kb : Nat)
    (a b : AVFilterFormats) (hne : ka ≠ kb)
    (ha : alistFind ka w.sets = some a) (hb : alistFind kb w.sets = some b)
    (hempty : a.formats = [] ∨ b.formats = []) :
    ((merge_samplerates_internal w ka kb false true).1 = 1 ∧
     ∃ s, alistFind (if a.formats.isEmpty then kb else ka)
         (merge_samplerates_internal w ka kb false true).2.sets = some s ∧
       s.formats = (if a.formats.isEmpty then b.formats else a.formats) ∧
       s.refs.length = a.refs.length + b.refs.length) ∧
    (can_merge_samplerates w ka kb = 1 ∧
     ∀ aok, merge_samplerates_internal w ka kb true aok = (1, w)) := by
  have hor : (a.formats.isEmpty || b.formats.isEmpty) = true := by
    rcases hempty with h | h <;> simp [h]
  constructor
  · by_cases hae : a.formats.isEmpty
    · have hm : merge_samplerates_internal w ka kb false true = (1, MERGE_REF_W w kb ka) := by
        simp only [merge_samplerates_internal, ha, hb]
        simp [hne, hae]
      rw [hm]
      refine ⟨rfl, ⟨RefSet.setRefs b (RefSet.refs b ++ RefSet.refs a), ?_, ?_, ?_⟩⟩
      · simp only [hae, if_true]
        exact mergeRef_find_ret w (fun hh => hne hh.symm) hb ha
      · simp [hae, fmts_setRefs]
      · rw [fmts_refs_setRefs]
        show (b.refs ++ a.refs).length = a.refs.length + b.refs.length
        simp [Nat.add_comm]
    · have hbe : b.formats.isEmpty = true := by
        rcases hempty with h | h
        · exact absurd (by simp [h]) hae
        · simp [h]
      have hm : merge_samplerates_internal w ka kb false true = (1, MERGE_REF_W w ka kb) := by
        simp only [merge_samplerates_internal, ha, hb]
        simp [hne, hae, hbe]
      rw [hm]
      refine ⟨rfl, ⟨RefSet.setRefs a (RefSet.refs a ++ RefSet.refs b), ?_, ?_, ?_⟩⟩
      · simp only [hae, if_false, Bool.false_eq_true]
        exact mergeRef_find_ret w hne ha hb
      · simp [hae, fmts_setRefs]
      · rw [fmts_refs_setRefs]
        show (a.refs ++ b.refs).length = a.refs.length + b.refs.length
        simp
  · have hck : ∀ aok, merge_samplerates_internal w ka kb true aok = (1, w) := by
      intro aok
      simp only [merge_samplerates_internal, ha, hb]
      simp [hne, hor]
    exact ⟨by rw [can_merge_samplerates, hck true], hck⟩

/-- Witness for claim_C7 — the spec's absorption example: A = {}
(unconstrained), B = {44100, 48000}; the merge succeeds with B's
entries and the combined owners, and the probe reports 1 without
touching the world. -/
theorem claim_C7_witness :
    ((merge_samplerates_internal
        ⟨[(1, ⟨[], [10]⟩), (2, ⟨[44100, 48000], [11]⟩)], [(10, some 1), (11, some 2)]⟩
        1 2 false true).1 = 1 ∧
     ∃ s, alistFind (if ([] : List Int).isEmpty then 2 else 1)
         (merge_samplerates_internal
           ⟨[(1, ⟨[], [10]⟩), (2, ⟨[44100, 48000], [11]⟩)], [(10, some 1), (11, some 2)]⟩
           1 2 false true).2.sets = some s ∧
       s.formats = (if ([] : List Int).isEmpty then [44100, 48000] else ([] : List Int)) ∧
       s.refs.length = [10].length + [11].length) ∧
    (can_merge_samplerates
        ⟨[(1, ⟨[], [10]⟩), (2, ⟨[44100, 48000], [11]⟩)], [(10, some 1), (11, some 2)]⟩
        1 2 = 1 ∧
     ∀ aok, merge_samplerates_internal
        ⟨[(1, ⟨[], [10]⟩), (2, ⟨[44100, 48000], [11]⟩)], [(10, some 1), (11, some 2)]⟩
        1 2 true aok
      = (1, ⟨[(1, ⟨[], [10]⟩), (2, ⟨[44100, 48000], [11]⟩)], [(10, some 1), (11, some 2)]⟩)) :=
  claim_C7
    ⟨[(1, ⟨[], [10]⟩), (2, ⟨[44100, 48000], [11]⟩)], [(10, some 1), (11, some 2)]⟩
    1 2 ⟨[], [10]⟩ ⟨[44100, 48000], [11]⟩
    (by decide) (by decide) (by decide) (Or.inl rfl)

theorem mergeRef_ownership {F : Type} [RefSet F] (w : World F) {retK aK : Nat}
    {retObj aObj : F} (hc : Consistent w) (hne : retK ≠ aK)
    (hret : alistFind retK w.sets = some retObj)
    (ha : alistFind aK w.sets = some aObj) :
    (∃ s, alistFind retK (MERGE_REF_W w retK aK).sets = some s ∧
      (RefSet.refs s).length = (RefSet.refs retObj).length + (RefSet.refs aObj).length) ∧
    (∀ q ∈ w.slots, (q.2 = some retK ∨ q.2 = some aK) →
      (q.1, some retK) ∈ (MERGE_REF_W w retK aK).slots) ∧
    alistFind aK (MERGE_REF_W w retK aK).sets = none ∧
    (∀ q ∈ (MERGE_REF_W w retK aK).slots, q.2 ≠ some aK) := by
  refine ⟨⟨_, mergeRef_find_ret w hne hret ha, ?_⟩,
    mergeRef_slots_repointed w hc ha,
    mergeRef_find_donor w hne ha,
    mergeRef_donor_unreachable w hc hne ha⟩
  rw [RefSet.refs_setRefs]
  simp

theorem MergedOwnership.swap {F : Type} [RefSet F] {w : World F}
    {ka kb : Nat} {a b : F} {w' : World F}
    (h : MergedOwnership w kb ka b a w') : MergedOwnership w ka kb a b w' := by
  obtain ⟨surv, donor, hids, ⟨s, hf, hl⟩, hrep, hd, hun⟩ := h
  exact ⟨surv, donor, hids.symm, ⟨s, hf, by rw [hl, Nat.add_comm]⟩,
    fun q hq hcase => hrep q hq hcase.symm, hd, hun⟩

theorem mergedOwnership_of_mergeRef {F : Type} [RefSet F] (w w1 : World F)
    {surv donor : Nat} {ka kb : Nat} {a b : F} (survObj donorObj : F)
    (hids : (surv = ka ∧ donor = kb) ∨ (surv = kb ∧ donor = ka))
    (hc1 : Consistent w1) (hne : surv ≠ donor)
    (hslots : w1.slots = w.slots)
    (hfs : alistFind surv w1.sets = some survObj)
    (hfd : alistFind donor w1.sets = some donorObj)
    (hlen : (RefSet.refs survObj).length + (RefSet.refs donorObj).length
      = (RefSet.refs a).length + (RefSet.refs b).length) :
    MergedOwnership w ka kb a b (MERGE_REF_W w1 surv donor) := by
  obtain ⟨⟨s, hf, hl⟩, hrep, hd, hun⟩ := mergeRef_ownership w1 hc1 hne hfs hfd
  refine ⟨surv, donor, hids, ⟨s, hf, by rw [hl, hlen]⟩, ?_, hd, hun⟩
  intro q hq hcase
  apply hrep
  · rw [hslots]
    exact hq
  · rcases hids with ⟨rfl, rfl⟩ | ⟨rfl, rfl⟩
    · exact hcase
    · exact hcase.symm

theorem merge_cl_generic_ownership (w : World AVFilterChannelLayouts)
    (kGen kConc : Nat) (aG bC : AVFilterChannelLayouts) (aR : Bool)
    (hc : Consistent w) (hne : kGen ≠ kConc)
    (hg : alistFind kGen w.sets = some aG)
    (hcc : alistFind kConc w.sets = some bC)
    (h1 : (merge_cl_generic w kGen kConc aG bC aR).1 = 1) :
    MergedOwnership w kGen kConc aG bC (merge_cl_generic w kGen kConc aG bC aR).2 := by
  have hnc : kConc ≠ kGen := fun hh => hne hh.symm
  have hz1 : ¬ ((0 : Int) = 1) := by decide
  have hnem1 : ¬ ((AVERROR ENOMEM : Int) = 1) := by decide
  unfold merge_cl_generic at h1 ⊢
  by_cases hcase : clAll aG = 1 ∧ clAll bC = 0
  · rw [if_pos hcase] at h1 ⊢
    dsimp only at h1 ⊢
    by_cases hj : (keepKnownCompact bC.channel_layouts).2 = 0
    · rw [if_pos hj] at h1
      exact absurd h1 hz1
    · rw [if_neg hj] at h1 ⊢
      by_cases haR : aR = true
      · rw [if_pos haR] at h1 ⊢
        have hcz : Consistent
            (⟨alistSet kConc
                (⟨(keepKnownCompact bC.channel_layouts).1.take
                    (keepKnownCompact bC.channel_layouts).2,
                  bC.all_layouts, bC.all_counts, bC.refs⟩ : AVFilterChannelLayouts)
                w.sets,
              w.slots⟩ : World AVFilterChannelLayouts) :=
          consistent_setSameRefs w kConc hc hcc rfl
        refine MergedOwnership.swap ?_
        refine mergedOwnership_of_mergeRef w _
          (⟨(keepKnownCompact bC.channel_layouts).1.take
              (keepKnownCompact bC.channel_layouts).2,
            bC.all_layouts, bC.all_counts, bC.refs⟩ : AVFilterChannelLayouts) aG
          (Or.inl ⟨rfl, rfl⟩) hcz hnc rfl ?_ ?_ ?_
        · rw [alistFind_set_self, hcc]
          rfl
        · rw [alistFind_set_ne _ _ hne, hg]
        · rfl
      · rw [if_neg haR] at h1
        exact absurd h1 hnem1
  · rw [if_neg hcase] at h1 ⊢
    by_cases haR : aR = true
    · rw [if_pos haR] at h1 ⊢
      exact MergedOwnership.swap
        (mergedOwnership_of_mergeRef w w bC aG (Or.inl ⟨rfl, rfl⟩) hc hnc rfl hcc hg rfl)
    · rw [if_neg haR] at h1
      exact absurd h1 hnem1

theorem merge_cl_concrete_ownership (w : World AVFilterChannelLayouts)
    (ka kb : Nat) (a b : AVFilterChannelLayouts) (aL aR : Bool)
    (hc : Consistent w) (hne : ka ≠ kb)
    (ha : alistFind ka w.sets = some a) (hb : alistFind kb w.sets = some b)
    (h1 : (merge_cl_concrete w ka kb a b aL aR).1 = 1) :
    MergedOwnership w ka kb a b (merge_cl_concrete w ka kb a b aL aR).2 := by
  have hz1 : ¬ ((0 : Int) = 1) := by decide
  have hnem1 : ¬ ((AVERROR ENOMEM : Int) = 1) := by decide
  have hnk : kb ≠ ka := fun hh => hne hh.symm
  unfold merge_cl_concrete at h1 ⊢
  cases aL with
  | false =>
    rw [if_pos (show (!false) = true by decide)] at h1
    exact absurd h1 hnem1
  | true =>
    rw [if_neg (show ¬ ((!true) = true) by decide)] at h1 ⊢
    dsimp only at h1 ⊢
    generalize hR :
        (clPass1 a.channel_layouts b.channel_layouts).2.2 ++
            clPass2Round (clPass1 a.channel_layouts b.channel_layouts).1
              (clPass1 a.channel_layouts b.channel_layouts).2.1 ++
          clPass2Round (clPass1 a.channel_layouts b.channel_layouts).2.1
            (clPass1 a.channel_layouts b.channel_layouts).1 ++
        clPass3 (clPass1 a.channel_layouts b.channel_layouts).1
          (clPass1 a.channel_layouts b.channel_layouts).2.1 = R at h1 ⊢
    generalize hA : (clPass1 a.channel_layouts b.channel_layouts).1 = a1 at h1 ⊢
    generalize hB : (clPass1 a.channel_layouts b.channel_layouts).2.1 = b1 at h1 ⊢
    by_cases hres : R = []
    · rw [if_pos hres] at h1
      exact absurd h1 hz1
    · rw [if_neg hres] at h1 ⊢
      by_cases haR : aR = true
      · rw [if_pos haR] at h1 ⊢
        have hfa_mid : alistFind ka
            (alistSet ka
              (⟨a1, a.all_layouts, a.all_counts, a.refs⟩ : AVFilterChannelLayouts) w.sets)
            = some (⟨a1, a.all_layouts, a.all_counts, a.refs⟩ : AVFilterChannelLayouts) := by
          rw [alistFind_set_self, ha]
          rfl
        have hfb_mid : alistFind kb
            (alistSet ka
              (⟨a1, a.all_layouts, a.all_counts, a.refs⟩ : AVFilterChannelLayouts) w.sets)
            = some b := by
          rw [alistFind_set_ne _ _ hnk, hb]
        have hfa1 : alistFind ka
            (alistSet kb
              (⟨b1, b.all_layouts, b.all_counts, b.refs⟩ : AVFilterChannelLayouts)
              (alistSet ka
                (⟨a1, a.all_layouts, a.all_counts, a.refs⟩ : AVFilterChannelLayouts) w.sets))
            = some (⟨a1, a.all_layouts, a.all_counts, a.refs⟩ : AVFilterChannelLayouts) := by
          rw [alistFind_set_ne _ _ hne, hfa_mid]
        have hfb1 : alistFind kb
            (alistSet kb
              (⟨b1, b.all_layouts, b.all_counts, b.refs⟩ : AVFilterChannelLayouts)
              (alistSet ka
                (⟨a1, a.all_layouts, a.all_counts, a.refs⟩ : AVFilterChannelLayouts) w.sets))
            = some (⟨b1, b.all_layouts, b.all_counts, b.refs⟩ : AVFilterChannelLayouts) := by
          rw [alistFind_set_self, hfb_mid]
          rfl
        have hcz : Consistent
            (⟨alistSet kb
                (⟨b1, b.all_layouts, b.all_counts, b.refs⟩ : AVFilterChannelLayouts)
                (alistSet ka
                  (⟨a1, a.all_layouts, a.all_counts, a.refs⟩ : AVFilterChannelLayouts) w.sets),
              w.slots⟩ : World AVFilterChannelLayouts) := by
          have hmid : Consistent
              (⟨alistSet ka
                  (⟨a1, a.all_layouts, a.all_counts, a.refs⟩ : AVFilterChannelLayouts) w.sets,
                w.slots⟩ : World AVFilterChannelLayouts) :=
            consistent_setSameRefs w ka hc ha rfl
          exact consistent_setSameRefs _ kb hmid hfb_mid rfl
        by_cases hrc : b.refs.length < a.refs.length
        · simp only [if_pos hrc] at h1 ⊢
          obtain ⟨⟨s, hfindS, hlenS⟩, hrep, hd, hun⟩ :=
            mergeRef_ownership _ hcz hne hfa1 hfb1
          rw [hfindS] at h1 ⊢
          dsimp only at h1 ⊢
          refine ⟨ka, kb, Or.inl ⟨rfl, rfl⟩,
            ⟨⟨R, s.all_layouts, s.all_counts, s.refs⟩, ?_, ?_⟩, ?_, ?_, ?_⟩
          · rw [alistFind_set_self, hfindS]
            rfl
          · exact hlenS
          · exact hrep
          · rw [alistFind_set_ne _ _ hnk]
            exact hd
          · exact hun
        · simp only [if_neg hrc] at h1 ⊢
          obtain ⟨⟨s, hfindS, hlenS⟩, hrep, hd, hun⟩ :=
            mergeRef_ownership _ hcz hnk hfb1 hfa1
          rw [hfindS] at h1 ⊢
          dsimp only at h1 ⊢
          refine ⟨kb, ka, Or.inr ⟨rfl, rfl⟩,
            ⟨⟨R, s.all_layouts, s.all_counts, s.refs⟩, ?_, ?_⟩, ?_, ?_, ?_⟩
          · rw [alistFind_set_self, hfindS]
            rfl
          · show (RefSet.refs s).length = (RefSet.refs a).length + (RefSet.refs b).length
            rw [hlenS]
            exact Nat.add_comm _ _
          · intro q hq hcase
            exact hrep q hq hcase.symm
          · rw [alistFind_set_ne _ _ hne]
            exact hd
          · exact hun
      · rw [if_neg haR] at h1
        exact absurd h1 hnem1

theorem merge_formats_ownership (desc : Int → PixFmtDesc)
    (w : World AVFilterFormats) (ka kb : Nat) (a b : AVFilterFormats)
    (ty : AVMediaType) (aok : Bool)
    (hc : Consistent w) (hne : ka ≠ kb)
    (ha : alistFind ka w.sets = some a) (hb : alistFind kb w.sets = some b)
    (h1 : (merge_formats_internal desc w ka kb ty false aok).1 = 1) :
    MergedOwnership w ka kb a b (merge_formats_internal desc w ka kb ty false aok).2 := by
  have hz1 : ¬ ((0 : Int) = 1) := by decide
  have hnem1 : ¬ ((AVERROR ENOMEM : Int) = 1) := by decide
  simp only [merge_formats_internal, ha, hb] at h1 ⊢
  rw [if_neg hne] at h1 ⊢
  by_cases hl : (decide (ty = AVMediaType.video) && lossDetected desc a.formats b.formats) = true
  · rw [if_pos hl] at h1
    exact absurd h1 hz1
  · rw [if_neg hl] at h1 ⊢
    rw [if_neg (show ¬ (false = true) by decide)] at h1 ⊢
    by_cases hfil : a.formats.filter (fun f => b.formats.contains f) = []
    · rw [if_pos hfil] at h1
      exact absurd h1 hz1
    · rw [if_neg hfil] at h1 ⊢
      by_cases haok : aok = true
      · rw [if_pos haok] at h1 ⊢
        have hcz : Consistent
            (⟨alistSet ka
                (⟨a.formats.filter (fun f => b.formats.contains f), a.refs⟩ : AVFilterFormats)
                w.sets, w.slots⟩ : World AVFilterFormats) :=
          consistent_setSameRefs w ka hc ha rfl
        refine mergedOwnership_of_mergeRef w _
          (⟨a.formats.filter (fun f => b.formats.contains f), a.refs⟩ : AVFilterFormats) b
          (Or.inl ⟨rfl, rfl⟩) hcz hne rfl ?_ ?_ rfl
        · rw [alistFind_set_self, ha]
          rfl
        · rw [alistFind_set_ne _ _ (fun hh => hne hh.symm), hb]
      · rw [if_neg haok] at h1
        exact absurd h1 hnem1

theorem merge_samplerates_ownership (w : World AVFilterFormats) (ka kb : Nat)
    (a b : AVFilterFormats) (aok : Bool)
    (hc : Consistent w) (hne : ka ≠ kb)
    (ha : alistFind ka w.sets = some a) (hb : alistFind kb w.sets = some b)
    (h1 : (merge_samplerates_internal w ka kb false aok).1 = 1) :
    MergedOwnership w ka kb a b (merge_samplerates_internal w ka kb false aok).2 := by
  have hz1 : ¬ ((0 : Int) = 1) := by decide
  have hnem1 : ¬ ((AVERROR ENOMEM : Int) = 1) := by decide
  have hnk : kb ≠ ka := fun hh => hne hh.symm
  simp only [merge_samplerates_internal, ha, hb] at h1 ⊢
  rw [if_neg hne] at h1 ⊢
  by_cases hemp : (a.formats.isEmpty || b.formats.isEmpty) = true
  · rw [if_pos hemp] at h1 ⊢
    rw [if_neg (show ¬ (false = true) by decide)] at h1 ⊢
    by_cases hae : a.formats.isEmpty = true
    · simp only [if_pos hae] at h1 ⊢
      by_cases haok : aok = true
      · rw [if_pos haok] at h1 ⊢
        exact MergedOwnership.swap
          (mergedOwnership_of_mergeRef w w b a (Or.inl ⟨rfl, rfl⟩) hc hnk rfl hb ha rfl)
      · rw [if_neg haok] at h1
        exact absurd h1 hnem1
    · simp only [if_neg hae] at h1 ⊢
      by_cases haok : aok = true
      · rw [if_pos haok] at h1 ⊢
        exact mergedOwnership_of_mergeRef w w a b (Or.inl ⟨rfl, rfl⟩) hc hne rfl ha hb rfl
      · rw [if_neg haok] at h1
        exact absurd h1 hnem1
  · rw [if_neg hemp] at h1 ⊢
    rw [if_neg (show ¬ (false = true) by decide)] at h1 ⊢
    by_cases hfil : a.formats.filter (fun f => b.formats.contains f) = []
    · rw [if_pos hfil] at h1
      exact absurd h1 hz1
    · rw [if_neg hfil] at h1 ⊢
      by_cases haok : aok = true
      · rw [if_pos haok] at h1 ⊢
        have hcz : Consistent
            (⟨alistSet ka
                (⟨a.formats.filter (fun f => b.formats.contains f), a.refs⟩ : AVFilterFormats)
                w.sets, w.slots⟩ : World AVFilterFormats) :=
          consistent_setSameRefs w ka hc ha rfl
        refine mergedOwnership_of_mergeRef w _
          (⟨a.formats.filter (fun f => b.formats.contains f), a.refs⟩ : AVFilterFormats) b
          (Or.inl ⟨rfl, rfl⟩) hcz hne rfl ?_ ?_ rfl
        · rw [alistFind_set_self, ha]
          rfl
        · rw [alistFind_set_ne _ _ hnk, hb]
      · rw [if_neg haok] at h1
        exact absurd h1 hnem1

/-- C5: any successful merge of two distinct live sets — scalar
formats, sample rates or channel layouts — combines ownership onto the
survivor: the surviving instance's refcount equals the sum of both
operands' previous refcounts, every slot that referenced either operand
now references the survivor, and the donor instance is destroyed and
reachable from no slot. -/
theorem claim_C5 :
    (∀ (desc : Int → PixFmtDesc) (w : World AVFilterFormats) (ka kb : Nat)
        (a b : AVFilterFormats) (ty : AVMediaType) (aok : Bool),
      Consistent w → ka ≠ kb →
      alistFind ka w.sets = some a → alistFind kb w.sets = some b →
      a.refs ≠ [] → b.refs ≠ [] →
      (merge_formats_internal desc w ka kb ty false aok).1 = 1 →
      MergedOwnership w ka kb a b (merge_formats_internal desc w ka kb ty false aok).2) ∧
    (∀ (w : World AVFilterFormats) (ka kb : Nat) (a b : AVFilterFormats) (aok : Bool),
      Consistent w → ka ≠ kb →
      alistFind ka w.sets = some a → alistFind kb w.sets = some b →
      a.refs ≠ [] → b.refs ≠ [] →
      (merge_samplerates_internal w ka kb false aok).1 = 1 →
      MergedOwnership w ka kb a b (merge_samplerates_internal w ka kb false aok).2) ∧
    (∀ (w : World AVFilterChannelLayouts) (ka kb : Nat)
        (a b : AVFilterChannelLayouts) (aL aR : Bool),
      Consistent w → ka ≠ kb →
      alistFind ka w.sets = some a → alistFind kb w.sets = some b →
      a.refs ≠ [] → b.refs ≠ [] →
      (merge_channel_layouts w ka kb aL aR).1 = 1 →
      MergedOwnership w ka kb a b (merge_channel_layouts w ka kb aL aR).2) := by
  refine ⟨?_, ?_, ?_⟩
  · intro desc w ka kb a b ty aok hc hne ha hb hla hlb h1
    exact merge_formats_ownership desc w ka kb a b ty aok hc hne ha hb h1
  · intro w ka kb a b aok hc hne ha hb hla hlb h1
    exact merge_samplerates_ownership w ka kb a b aok hc hne ha hb h1
  · intro w ka kb a b aL aR hc hne ha hb hla hlb h1
    simp only [merge_channel_layouts, ha, hb] at h1 ⊢
    rw [if_neg hne] at h1 ⊢
    by_cases hcc0 : clAll a = 0 ∧ clAll b = 0
    · rw [if_pos hcc0] at h1 ⊢
      exact merge_cl_concrete_ownership w ka kb a b aL aR hc hne ha hb h1
    · rw [if_neg hcc0] at h1 ⊢
      by_cases hlt : clAll a < clAll b
      · rw [if_pos hlt] at h1 ⊢
        exact MergedOwnership.swap
          (merge_cl_generic_ownership w kb ka b a aR hc (fun hh => hne hh.symm) hb ha h1)
      · rw [if_neg hlt] at h1 ⊢
        exact merge_cl_generic_ownership w ka kb a b aR hc hne ha hb h1

/-- Witness for claim_C5: merging two single-owner scalar sets with a
common format combines both owners onto the survivor. -/
theorem claim_C5_witness :
    Consistent
      (⟨[(1, ⟨[5, 7], [10]⟩), (2, ⟨[7, 9], [11]⟩)],
        [(10, some 1), (11, some 2)]⟩ : World AVFilterFormats) ∧
    MergedOwnership
      ⟨[(1, ⟨[5, 7], [10]⟩), (2, ⟨[7, 9], [11]⟩)], [(10, some 1), (11, some 2)]⟩
      1 2 ⟨[5, 7], [10]⟩ ⟨[7, 9], [11]⟩
      (merge_formats_internal (fun _ => ⟨false, 1⟩)
        ⟨[(1, ⟨[5, 7], [10]⟩), (2, ⟨[7, 9], [11]⟩)], [(10, some 1), (11, some 2)]⟩
        1 2 AVMediaType.audio false true).2 :=
  ⟨by decide,
   claim_C5.1 (fun _ => ⟨false, 1⟩)
     ⟨[(1, ⟨[5, 7], [10]⟩), (2, ⟨[7, 9], [11]⟩)], [(10, some 1), (11, some 2)]⟩
     1 2 ⟨[5, 7], [10]⟩ ⟨[7, 9], [11]⟩ AVMediaType.audio true
     (by decide) (by decide) (by decide) (by decide) (by decide) (by decide) (by decide)⟩

theorem alistSet_pred {α : Type} {P : α → Prop} {l : List (Nat × α)} {k : Nat}
    {v : α} (hP : ∀ p ∈ l, P p.2) (hv : P v) : ∀ p ∈ alistSet k v l, P p.2 := by
  intro p hp
  rcases mem_alistSet hp with h | h
  · rw [h]
    exact hv
  · exact hP p h.1

theorem mergeRef_sets_pred {F : Type} [RefSet F] {P : F → Prop} {w : World F}
    {retK aK : Nat} (hP : ∀ p ∈ w.sets, P p.2)
    (hset : ∀ x l, P x → P (RefSet.setRefs x l)) :
    ∀ p ∈ (MERGE_REF_W w retK aK).sets, P p.2 := by
  intro p hp
  unfold MERGE_REF_W at hp
  cases hfind : alistFind aK w.sets with
  | none =>
    rw [hfind] at hp
    exact hP p hp
  | some aObj =>
    rw [hfind] at hp
    rcases mem_alistMapAt hp with ⟨q, hq, hqk, hpq⟩ | ⟨hmem, _⟩
    · rw [hpq]
      exact hset _ _ (hP q (mem_of_mem_alistRemove hq).1)
    · exact hP p (mem_of_mem_alistRemove hmem).1

theorem clWildcardInv_setRefs : ∀ (x : AVFilterChannelLayouts) (l : List Nat),
    clWildcardInv x → clWildcardInv (RefSet.setRefs x l) := by
  intro x l hx hcnt
  rw [cl_setRefs_all_counts] at hcnt
  rw [cl_setRefs_all_layouts]
  exact hx hcnt

theorem merge_cl_generic_inv (w : World AVFilterChannelLayouts)
    (kGen kConc : Nat) (aG bC : AVFilterChannelLayouts) (aR : Bool)
    (hP : ∀ p ∈ w.sets, clWildcardInv p.2) (hbI : clWildcardInv bC) :
    ∀ p ∈ (merge_cl_generic w kGen kConc aG bC aR).2.sets, clWildcardInv p.2 := by
  unfold merge_cl_generic
  split
  · dsimp only
    split
    · exact hP
    · split
      · exact mergeRef_sets_pred (alistSet_pred hP hbI) clWildcardInv_setRefs
      · exact alistSet_pred hP hbI
  · split
    · exact mergeRef_sets_pred hP clWildcardInv_setRefs
    · exact hP

theorem merge_cl_concrete_inv (w : World AVFilterChannelLayouts)
    (ka kb : Nat) (a b : AVFilterChannelLayouts) (aL aR : Bool)
    (hP : ∀ p ∈ w.sets, clWildcardInv p.2)
    (haI : clWildcardInv a) (hbI : clWildcardInv b) :
    ∀ p ∈ (merge_cl_concrete w ka kb a b aL aR).2.sets, clWildcardInv p.2 := by
  unfold merge_cl_concrete
  split
  · exact hP
  · dsimp only
    have hwz : ∀ p ∈ alistSet kb
        (⟨(clPass1 a.channel_layouts b.channel_layouts).2.1,
          b.all_layouts, b.all_counts, b.refs⟩ : AVFilterChannelLayouts)
        (alistSet ka
          (⟨(clPass1 a.channel_layouts b.channel_layouts).1,
            a.all_layouts, a.all_counts, a.refs⟩ : AVFilterChannelLayouts) w.sets),
        clWildcardInv p.2 :=
      alistSet_pred (alistSet_pred hP haI) hbI
    split
    · exact hwz
    · split
      · split
        · rename_i sObj heqS
          refine alistSet_pred (mergeRef_sets_pred hwz clWildcardInv_setRefs) ?_
          have hsObj : clWildcardInv sObj :=
            mergeRef_sets_pred hwz clWildcardInv_setRefs _ (alistFind_mem heqS)
          exact hsObj
        · exact mergeRef_sets_pred hwz clWildcardInv_setRefs
      · exact hwz

theorem merge_channel_layouts_inv (w : World AVFilterChannelLayouts)
    (ka kb : Nat) (aL aR : Bool)
    (hP : ∀ p ∈ w.sets, clWildcardInv p.2) :
    ∀ p ∈ (merge_channel_layouts w ka kb aL aR).2.sets, clWildcardInv p.2 := by
  unfold merge_channel_layouts
  split
  · exact hP
  · split
    · rename_i xa xb a b heqa heqb
      have haI : clWildcardInv a := hP _ (alistFind_mem heqa)
      have hbI : clWildcardInv b := hP _ (alistFind_mem heqb)
      split
      · exact merge_cl_concrete_inv w ka kb a b aL aR hP haI hbI
      · split
        · exact merge_cl_generic_inv w kb ka b a aR hP haI
        · exact merge_cl_generic_inv w ka kb a b aR hP hbI
    · exact hP

/-- C8: the wildcard implication all_counts → all_layouts is an
invariant — ff_all_channel_layouts sets only all_layouts,
ff_all_channel_counts sets both flags, a literal list sets neither,
merging channel-layout sets preserves the invariant for every live set
of the world, and validation rejects any set violating it with
AVERROR(EINVAL). -/
theorem claim_C8 :
    (ff_all_channel_layouts.all_layouts = true ∧
      ff_all_channel_layouts.all_counts = false) ∧
    (ff_all_channel_counts.all_layouts = true ∧
      ff_all_channel_counts.all_counts = true) ∧
    (∀ fmts, (ff_make_channel_layout_list fmts).all_layouts = false ∧
      (ff_make_channel_layout_list fmts).all_counts = false) ∧
    (∀ (w : World AVFilterChannelLayouts) (ka kb : Nat) (aL aR : Bool),
      (∀ p ∈ w.sets, clWildcardInv p.2) →
      ∀ p ∈ (merge_channel_layouts w ka kb aL aR).2.sets, clWildcardInv p.2) ∧
    (∀ f : AVFilterChannelLayouts, f.all_counts = true → f.all_layouts = false →
      ff_formats_check_channel_layouts (some f) = AVERROR EINVAL) := by
  refine ⟨⟨rfl, rfl⟩, ⟨rfl, rfl⟩, fun fmts => ⟨rfl, rfl⟩,
    fun w ka kb aL aR hP => merge_channel_layouts_inv w ka kb aL aR hP, ?_⟩
  intro f hcnt hlay
  simp [ff_formats_check_channel_layouts, hcnt, hlay]

/-- Witness for claim_C8: merging the all_layouts wildcard with a
concrete set keeps every surviving set satisfying the invariant, and a
set with all_counts but not all_layouts is rejected. -/
theorem claim_C8_witness :
    (∀ p ∈ (merge_channel_layouts
        ⟨[(1, ⟨[], true, false, [10]⟩),
          (2, ⟨[ChLayout.known 1 2], false, false, [11]⟩)],
         [(10, some 1), (11, some 2)]⟩ 1 2 true true).2.sets, clWildcardInv p.2) ∧
    ff_formats_check_channel_layouts
      (some ⟨[ChLayout.known 1 2], false, true, []⟩) = AVERROR EINVAL :=
  ⟨claim_C8.2.2.2.1
      ⟨[(1, ⟨[], true, false, [10]⟩),
        (2, ⟨[ChLayout.known 1 2], false, false, [11]⟩)],
       [(10, some 1), (11, some 2)]⟩ 1 2 true true (by decide),
   claim_C8.2.2.2.2 ⟨[ChLayout.known 1 2], false, true, []⟩ rfl rfl⟩

theorem formatsRef_true_eq {F : Type} [RefSet F] (w : World F) (k ref : Nat)
    (f : F) (hf : alistFind k w.sets = some f) :
    FORMATS_REF_W w (some k) ref true
      = (0, ⟨alistSet k (RefSet.setRefs f (RefSet.refs f ++ [ref])) w.sets,
             alistSet ref (some k) w.slots⟩) := by
  simp [FORMATS_REF_W, hf]

theorem formatsRef_false_eq {F : Type} [RefSet F] (w : World F) (k ref : Nat)
    (f : F) (hf : alistFind k w.sets = some f) :
    FORMATS_REF_W w (some k) ref false
      = (AVERROR ENOMEM,
         if RefSet.refs f = [] then ⟨alistRemove k w.sets, w.slots⟩ else w) := by
  simp only [FORMATS_REF_W, hf]
  rw [if_neg (show ¬ (false = true) by decide)]

theorem consistent_attach {F : Type} [RefSet F] (w : World F) (k ref : Nat)
    (f : F) (hc : Consistent w) (hf : alistFind k w.sets = some f)
    (hslot : alistFind ref w.slots = some none) :
    Consistent (⟨alistSet k (RefSet.setRefs f (RefSet.refs f ++ [ref])) w.sets,
                 alistSet ref (some k) w.slots⟩ : World F) := by
  obtain ⟨hndS, hndL, hrnd, hfwd, hbwd⟩ := hc
  have hmemf : (k, f) ∈ w.sets := alistFind_mem hf
  have hmemslot : (ref, (none : Option Nat)) ∈ w.slots := alistFind_mem hslot
  have hrefnotin : ∀ p ∈ w.sets, ref ∉ RefSet.refs p.2 := by
    intro p hp hin
    have h1 : (ref, some p.1) ∈ w.slots := hfwd p hp ref hin
    cases alist_mem_unique hndL h1 hmemslot
  refine ⟨?_, ?_, ?_, ?_, ?_⟩
  · rw [alistSet_keys]
    exact hndS
  · rw [alistSet_keys]
    exact hndL
  · intro p hp
    rcases mem_alistSet hp with h | h
    · rw [h]
      show (RefSet.refs (RefSet.setRefs f (RefSet.refs f ++ [ref]))).Nodup
      rw [RefSet.refs_setRefs]
      refine List.Nodup.append (hrnd (k, f) hmemf) (List.nodup_singleton _) ?_
      intro x hx1 hx2
      rw [List.mem_singleton] at hx2
      subst hx2
      exact hrefnotin (k, f) hmemf hx1
    · exact hrnd p h.1
  · intro p hp s hs
    rcases mem_alistSet hp with h | h
    · rw [h] at hs ⊢
      show (s, some k) ∈ alistSet ref (some k) w.slots
      have hs' : s ∈ RefSet.refs f ++ [ref] := by
        rw [← RefSet.refs_setRefs f (RefSet.refs f ++ [ref])]
        exact hs
      rcases List.mem_append.mp hs' with hsf | hsr
      · have hsl := hfwd (k, f) hmemf s hsf
        have hsne : s ≠ ref := by
          intro hh
          subst hh
          exact hrefnotin (k, f) hmemf hsf
        exact mem_alistSet_of_ne _ hsl hsne
      · rw [List.mem_singleton] at hsr
        subst hsr
        exact mem_alistSet_self _ hmemslot
    · have hsl := hfwd p h.1 s hs
      have hsne : s ≠ ref := by
        intro hh
        subst hh
        exact hrefnotin p h.1 hs
      exact mem_alistSet_of_ne _ hsl hsne
  · intro q hq p hp hqp
    rcases mem_alistSet hq with hq' | hq'
    · rcases mem_alistSet hp with hp' | hp'
      · rw [hq', hp']
        show ref ∈ RefSet.refs (RefSet.setRefs f (RefSet.refs f ++ [ref]))
        rw [RefSet.refs_setRefs]
        exact List.mem_append.mpr (Or.inr (List.mem_singleton.mpr rfl))
      · rw [hq'] at hqp
        have hk : some k = some p.1 := hqp
        have : k = p.1 := by
          injection hk
        exact absurd this.symm hp'.2
    · rcases mem_alistSet hp with hp' | hp'
      · rw [hp']
        have hqk : q.2 = some k := by
          rw [hp'] at hqp
          exact hqp
        have hin := hbwd q hq'.1 (k, f) hmemf hqk
        show q.1 ∈ RefSet.refs (RefSet.setRefs f (RefSet.refs f ++ [ref]))
        rw [RefSet.refs_setRefs]
        exact List.mem_append.mpr (Or.inl hin)
      · exact hbwd q hq'.1 p hp'.1 hqp

theorem set_common_go_fail {F : Type} [RefSet F] (k : Nat) (mt : AVMediaType)
    (oracle : Nat → Bool) :
    ∀ (ls : List (Option AVFilterLink)) (w : World F) (n : Nat) (f : F),
      Consistent w → alistFind k w.sets = some f →
      (set_common_go k mt oracle ls w n).1 < 0 →
      ((alistFind k (set_common_go k mt oracle ls w n).2.1.sets = none ∧
        RefSet.refs f = [] ∧
        ∀ q ∈ (set_common_go k mt oracle ls w n).2.1.slots, q.2 ≠ some k) ∨
       (∃ f', alistFind k (set_common_go k mt oracle ls w n).2.1.sets = some f' ∧
        (∀ s ∈ RefSet.refs f, s ∈ RefSet.refs f') ∧
        (∀ s ∈ RefSet.refs f', (s, some k) ∈ (set_common_go k mt oracle ls w n).2.1.slots))) := by
  intro ls
  induction ls with
  | nil =>
    intro w n f hc hf hlt
    have hz : ¬ ((0 : Int) < 0) := by decide
    exact absurd hlt hz
  | cons hd tl ih =>
    intro w n f hc hf hlt
    cases hd with
    | none =>
      exact ih w n f hc hf hlt
    | some l =>
      by_cases helig : alistFind l.slot w.slots = some none ∧
          (mt = AVMediaType.unknown ∨ l.ltype = mt)
      · cases horacle : oracle n with
        | true =>
          have hstep : set_common_go k mt oracle (some l :: tl) w n
              = set_common_go k mt oracle tl
                  (⟨alistSet k (RefSet.setRefs f (RefSet.refs f ++ [l.slot])) w.sets,
                    alistSet l.slot (some k) w.slots⟩ : World F) (n + 1) := by
            have hz : ¬ ((0 : Int) < 0) := by decide
            simp only [set_common_go]
            rw [if_pos helig, horacle, formatsRef_true_eq w k l.slot f hf]
            rw [if_neg (show ¬ (((0 : Int), (⟨alistSet k
                (RefSet.setRefs f (RefSet.refs f ++ [l.slot])) w.sets,
                alistSet l.slot (some k) w.slots⟩ : World F)).1 < 0) from hz)]
          rw [hstep] at hlt ⊢
          have hc1 : Consistent
              (⟨alistSet k (RefSet.setRefs f (RefSet.refs f ++ [l.slot])) w.sets,
                alistSet l.slot (some k) w.slots⟩ : World F) :=
            consistent_attach w k l.slot f hc hf helig.1
          have hf1 : alistFind k
              ((⟨alistSet k (RefSet.setRefs f (RefSet.refs f ++ [l.slot])) w.sets,
                alistSet l.slot (some k) w.slots⟩ : World F)).sets
              = some (RefSet.setRefs f (RefSet.refs f ++ [l.slot])) := by
            show alistFind k (alistSet k (RefSet.setRefs f (RefSet.refs f ++ [l.slot])) w.sets)
              = some (RefSet.setRefs f (RefSet.refs f ++ [l.slot]))
            rw [alistFind_set_self, hf]
            rfl
          rcases ih _ (n + 1) _ hc1 hf1 hlt with ⟨hnone, hrefs1, hslots⟩ | ⟨f', hfind, hsub, hwired⟩
          · rw [RefSet.refs_setRefs] at hrefs1
            simp at hrefs1
          · refine Or.inr ⟨f', hfind, ?_, hwired⟩
            intro s hs
            apply hsub
            rw [RefSet.refs_setRefs]
            exact List.mem_append.mpr (Or.inl hs)
        | false =>
          obtain ⟨hndS, hndL, hrnd, hfwd, hbwd⟩ := hc
          have hstep : set_common_go k mt oracle (some l :: tl) w n
              = (AVERROR ENOMEM,
                 (if RefSet.refs f = [] then
                    (⟨alistRemove k w.sets, w.slots⟩ : World F) else w), n + 1) := by
            have hneg : (AVERROR ENOMEM : Int) < 0 := by decide
            simp only [set_common_go]
            rw [if_pos helig, horacle, formatsRef_false_eq w k l.slot f hf]
            rw [if_pos (show ((AVERROR ENOMEM : Int),
                (if RefSet.refs f = [] then
                  (⟨alistRemove k w.sets, w.slots⟩ : World F) else w)).1 < 0 from hneg)]
          rw [hstep]
          by_cases hrefs : RefSet.refs f = []
          · rw [if_pos hrefs]
            refine Or.inl ⟨?_, hrefs, ?_⟩
            · exact alistFind_remove_self k w.sets
            · intro q hq hqk
              have hin := hbwd q hq (k, f) (alistFind_mem hf) hqk
              rw [hrefs] at hin
              cases hin
          · rw [if_neg hrefs]
            refine Or.inr ⟨f, hf, fun s hs => hs, ?_⟩
            intro s hs
            exact hfwd (k, f) (alistFind_mem hf) s hs
      · have hstep : set_common_go k mt oracle (some l :: tl) w n
            = set_common_go k mt oracle tl w n := by
          simp only [set_common_go]
          rw [if_neg helig]
        rw [hstep] at hlt ⊢
        exact ih w n f ⟨hc.1, hc.2⟩ hf hlt

theorem set_common_fail {F : Type} [RefSet F] (w : World F) (k : Nat)
    (mt : AVMediaType) (inputs outputs : List (Option AVFilterLink))
    (oracle : Nat → Bool) (f : F)
    (hc : Consistent w) (hf : alistFind k w.sets = some f)
    (hlt : (SET_COMMON_FORMATS_W w (some k) mt inputs outputs oracle).1 < 0) :
    (alistFind k (SET_COMMON_FORMATS_W w (some k) mt inputs outputs oracle).2.sets = none ∧
      RefSet.refs f = [] ∧
      ∀ q ∈ (SET_COMMON_FORMATS_W w (some k) mt inputs outputs oracle).2.slots,
        q.2 ≠ some k) ∨
    (∃ f', alistFind k
        (SET_COMMON_FORMATS_W w (some k) mt inputs outputs oracle).2.sets = some f' ∧
      (∀ s ∈ RefSet.refs f, s ∈ RefSet.refs f') ∧
      (∀ s ∈ RefSet.refs f',
        (s, some k) ∈ (SET_COMMON_FORMATS_W w (some k) mt inputs outputs oracle).2.slots)) := by
  have hz : ¬ ((0 : Int) < 0) := by decide
  unfold SET_COMMON_FORMATS_W at hlt ⊢
  dsimp only at hlt ⊢
  by_cases hgo : (set_common_go k mt oracle (inputs ++ outputs) w 0).1 < 0
  · rw [if_pos hgo] at hlt ⊢
    exact set_common_go_fail k mt oracle (inputs ++ outputs) w 0 f hc hf hgo
  · rw [if_neg hgo] at hlt
    exfalso
    split at hlt
    · split at hlt
      · exact absurd hlt hz
      · exact absurd hlt hz
    · exact absurd hlt hz

/-- C6 (amended): a broadcast that fails with a negative error performs
no rollback.  Either the set was destroyed — which happens only when it
had no owner at the failing attachment, and then no slot references it —
or the set survives holding every owner it had before the call (and any
gained during the partial broadcast), each of those slots still
referencing it.  Stated for ff_set_common_formats,
ff_set_common_samplerates and ff_set_common_channel_layouts. -/
theorem claim_C6 :
    (∀ (w : World AVFilterFormats) (k : Nat)
        (ins outs : List (Option AVFilterLink)) (oracle : Nat → Bool)
        (f : AVFilterFormats),
      Consistent w → alistFind k w.sets = some f →
      (ff_set_common_formats w (some k) ins outs oracle).1 < 0 →
      (alistFind k (ff_set_common_formats w (some k) ins outs oracle).2.sets = none ∧
        f.refs = [] ∧
        ∀ q ∈ (ff_set_common_formats w (some k) ins outs oracle).2.slots, q.2 ≠ some k) ∨
      (∃ f', alistFind k (ff_set_common_formats w (some k) ins outs oracle).2.sets = some f' ∧
        (∀ s ∈ f.refs, s ∈ f'.refs) ∧
        (∀ s ∈ f'.refs,
          (s, some k) ∈ (ff_set_common_formats w (some k) ins outs oracle).2.slots))) ∧
    (∀ (w : World AVFilterFormats) (k : Nat)
        (ins outs : List (Option AVFilterLink)) (oracle : Nat → Bool)
        (f : AVFilterFormats),
      Consistent w → alistFind k w.sets = some f →
      (ff_set_common_samplerates w (some k) ins outs oracle).1 < 0 →
      (alistFind k (ff_set_common_samplerates w (some k) ins outs oracle).2.sets = none ∧
        f.refs = [] ∧
        ∀ q ∈ (ff_set_common_samplerates w (some k) ins outs oracle).2.slots, q.2 ≠ some k) ∨
      (∃ f', alistFind k
          (ff_set_common_samplerates w (some k) ins outs oracle).2.sets = some f' ∧
        (∀ s ∈ f.refs, s ∈ f'.refs) ∧
        (∀ s ∈ f'.refs,
          (s, some k) ∈ (ff_set_common_samplerates w (some k) ins outs oracle).2.slots))) ∧
    (∀ (w : World AVFilterChannelLayouts) (k : Nat)
        (ins outs : List (Option AVFilterLink)) (oracle : Nat → Bool)
        (f : AVFilterChannelLayouts),
      Consistent w → alistFind k w.sets = some f →
      (ff_set_common_channel_layouts w (some k) ins outs oracle).1 < 0 →
      (alistFind k (ff_set_common_channel_layouts w (some k) ins outs oracle).2.sets = none ∧
        f.refs = [] ∧
        ∀ q ∈ (ff_set_common_channel_layouts w (some k) ins outs oracle).2.slots,
          q.2 ≠ some k) ∨
      (∃ f', alistFind k
          (ff_set_common_channel_layouts w (some k) ins outs oracle).2.sets = some f' ∧
        (∀ s ∈ f.refs, s ∈ f'.refs) ∧
        (∀ s ∈ f'.refs,
          (s, some k) ∈ (ff_set_common_channel_layouts w (some k) ins outs oracle).2.slots))) := by
  refine ⟨?_, ?_, ?_⟩
  · intro w k ins outs oracle f hc hf hlt
    exact set_common_fail w k AVMediaType.unknown ins outs oracle f hc hf hlt
  · intro w k ins outs oracle f hc hf hlt
    exact set_common_fail w k AVMediaType.audio ins outs oracle f hc hf hlt
  · intro w k ins outs oracle f hc hf hlt
    exact set_common_fail w k AVMediaType.audio ins outs oracle f hc hf hlt

/-- Counterexample to C6 as stated: broadcasting one sample-rate set
over two audio links, the first attachment succeeds and the second
fails with ENOMEM.  The call returns the error, yet slot 10 retains
ownership of the set, which is still live with slot 10 registered: no
rollback of prior attachments happens. -/
theorem claim_C6_counterexample :
    (ff_set_common_samplerates
        ⟨[(0, ⟨[44100], []⟩)], [(10, none), (11, none)]⟩ (some 0)
        [some ⟨10, AVMediaType.audio⟩, some ⟨11, AVMediaType.audio⟩] []
        (fun n => n == 0)).1 = AVERROR ENOMEM ∧
    (10, some 0) ∈ (ff_set_common_samplerates
        ⟨[(0, ⟨[44100], []⟩)], [(10, none), (11, none)]⟩ (some 0)
        [some ⟨10, AVMediaType.audio⟩, some ⟨11, AVMediaType.audio⟩] []
        (fun n => n == 0)).2.slots ∧
    alistFind 0 (ff_set_common_samplerates
        ⟨[(0, ⟨[44100], []⟩)], [(10, none), (11, none)]⟩ (some 0)
        [some ⟨10, AVMediaType.audio⟩, some ⟨11, AVMediaType.audio⟩] []
        (fun n => n == 0)).2.sets = some ⟨[44100], [10]⟩ := by decide

/-- Witness for claim_C6 on the same failing broadcast: the set
survives with all its owners still wired to it. -/
theorem claim_C6_witness :
    Consistent
      (⟨[(0, ⟨[44100], []⟩)], [(10, none), (11, none)]⟩ : World AVFilterFormats) ∧
    ((alistFind 0 (ff_set_common_samplerates
        ⟨[(0, ⟨[44100], []⟩)], [(10, none), (11, none)]⟩ (some 0)
        [some ⟨10, AVMediaType.audio⟩, some ⟨11, AVMediaType.audio⟩] []
        (fun n => n == 0)).2.sets = none ∧
      ([] : List Nat) = [] ∧
      ∀ q ∈ (ff_set_common_samplerates
          ⟨[(0, ⟨[44100], []⟩)], [(10, none), (11, none)]⟩ (some 0)
          [some ⟨10, AVMediaType.audio⟩, some ⟨11, AVMediaType.audio⟩] []
          (fun n => n == 0)).2.slots, q.2 ≠ some 0) ∨
     (∃ f', alistFind 0 (ff_set_common_samplerates
          ⟨[(0, ⟨[44100], []⟩)], [(10, none), (11, none)]⟩ (some 0)
          [some ⟨10, AVMediaType.audio⟩, some ⟨11, AVMediaType.audio⟩] []
          (fun n => n == 0)).2.sets = some f' ∧
        (∀ s ∈ ([] : List Nat), s ∈ f'.refs) ∧
        (∀ s ∈ f'.refs, (s, some 0) ∈ (ff_set_common_samplerates
            ⟨[(0, ⟨[44100], []⟩)], [(10, none), (11, none)]⟩ (some 0)
            [some ⟨10, AVMediaType.audio⟩, some ⟨11, AVMediaType.audio⟩] []
            (fun n => n == 0)).2.slots))) :=
  ⟨by decide,
   claim_C6.2.1 ⟨[(0, ⟨[44100], []⟩)], [(10, none), (11, none)]⟩ 0
     [some ⟨10, AVMediaType.audio⟩, some ⟨11, AVMediaType.audio⟩] []
     (fun n => n == 0) ⟨[44100], []⟩ (by decide) (by decide) (by decide)⟩

end AVFilter
